import Mathlib

/-!
Shallow embedding of the product catalog backend: an Express application
managing Product documents (Mongo) whose image assets live in GridFS.

Embedded source files:
- src/models/Product.js : GridFS bucket lifecycle, uploadToGridFS,
  deleteFromGridFS (the variant that treats invalid ids and FileNotFound
  as success), Product schema.
- src/unnamed/part_000  : the alternative model file whose deleteFromGridFS
  (the UPDATED delete helper) rejects on invalid ids and on every
  bucket.delete error, FileNotFound included.
- src/routes/products.js : POST / PUT /:id / DELETE /:id route handlers.

Modelling conventions:
- Blob ids (Mongo ObjectId) are Nat.  Field values of the Mixed schema type
  are ImageVal: either a genuine ObjectId or a legacy string (URL or other).
  Values are kept at the getter-rendered level, so the schema getter and
  setter pair (toString on read, hex parse on write) is the identity here.
- Promises are linearized: the per-shade operations launched together by
  Promise.all run left to right.  On rejection the remaining operations are
  not modelled, which only drops events after the failure point.
- Every operation returns (result, event trace, new state).  The trace
  records each Blob Store interface call (bsStoreCall, bsDeleteCall), each
  interaction with the underlying bucket (bucketWrite, bucketDelete), and
  each document write (docSave, docUpdate, docRemove).
- I/O faults are injected through an oracle: uploadFault is keyed by the id
  the upload would allocate, deleteFault by the id handed to bucket.delete.
- JS array access shadeFiles[idx] is modelled over List (Option UpFile):
  a none entry is a hole / undefined slot, exactly what the truthiness
  check in the handler sees.
-/

/-- Value stored in an image field of the Mixed schema type: a GridFS
ObjectId or a legacy string (URL or arbitrary text). -/
inductive ImageVal
  | oid (n : Nat)
  | legacy (s : String)
deriving DecidableEq, Repr

/-- Hex digit to its value, matching the characters ObjectId accepts. -/
def hexDigitVal (c : Char) : Option Nat :=
  if c.isDigit then some (c.toNat - 48)
  else if 97 ≤ c.toNat && c.toNat ≤ 102 then some (c.toNat - 87)
  else if 65 ≤ c.toNat && c.toNat ≤ 70 then some (c.toNat - 55)
  else none

/-- Parse a hex character list, accumulating into a Nat. -/
def parseHexChars : List Char → Nat → Option Nat
  | [], acc => some acc
  | c :: cs, acc =>
    match hexDigitVal c with
    | some d => parseHexChars cs (16 * acc + d)
    | none => none

/-- Parse a 24 character hex string, the accepted ObjectId text form.
This models new ObjectId(string) succeeding as well as
mongoose.Types.ObjectId.isValid on strings. -/
def parseObjectIdHex (s : String) : Option Nat :=
  if s.length == 24 then parseHexChars s.toList 0 else none

/-- Conversion performed by new ObjectId(fileId): an ObjectId passes
through, a string must be 24 hex characters. -/
def ImageVal.toOId : ImageVal → Option Nat
  | .oid n => some n
  | .legacy s => parseObjectIdHex s

/-- JS truthiness of an image field value: ObjectIds are truthy, a string
is truthy unless empty. -/
def ImageVal.truthy : ImageVal → Bool
  | .oid _ => true
  | .legacy s => !(s == "")

/-- JS truthiness of a possibly absent image field. -/
def truthyOpt : Option ImageVal → Bool
  | none => false
  | some v => v.truthy

/-- Raw uploaded file as delivered by multer memory storage. -/
structure UpFile where
  originalname : String
  mimetype : String
  buffer : List Nat
deriving DecidableEq, Repr

/-- Blob stored in the GridFS bucket. -/
structure StoredBlob where
  id : Nat
  filename : String
  contentType : String
  bytes : List Nat
deriving DecidableEq, Repr

/-- State of the GridFS uploads bucket: the next id the driver will
allocate and the blobs currently stored. -/
structure GridFS where
  nextId : Nat
  files : List StoredBlob
deriving DecidableEq, Repr

/-- Whether a blob with the given id is currently stored. -/
def GridFS.hasFile (g : GridFS) (b : Nat) : Bool :=
  g.files.any (fun f => f.id == b)

/-- Injected I/O fault oracle.  uploadFault is keyed by the id the upload
stream would allocate; deleteFault by the id given to bucket.delete. -/
structure IOFaults where
  uploadFault : Nat → Bool
  deleteFault : Nat → Bool

/-- Fault free oracle. -/
def noFaults : IOFaults := ⟨fun _ => false, fun _ => false⟩

/-- Observable events of one request. -/
inductive Event
  | bsStoreCall
  | bsDeleteCall (fileId : Option ImageVal)
  | bucketWrite (id : Nat)
  | bucketDelete (id : Nat)
  | docSave (id : Nat)
  | docUpdate (id : Nat)
  | docRemove (id : Nat)
deriving DecidableEq, Repr

/-- Event is an invocation of the Blob Store delete interface. -/
def Event.isBsDeleteCall : Event → Bool
  | .bsDeleteCall _ => true
  | _ => false

/-- Event belongs to deletion activity (interface call or bucket call). -/
def Event.isDeleteEvent : Event → Bool
  | .bsDeleteCall _ => true
  | .bucketDelete _ => true
  | _ => false

/-- Event is an interaction with the underlying bucket. -/
def Event.isBucketEvent : Event → Bool
  | .bucketWrite _ => true
  | .bucketDelete _ => true
  | _ => false

/-- Event concerns blobs rather than documents. -/
def Event.isBlobEvent : Event → Bool
  | .docSave _ => false
  | .docUpdate _ => false
  | .docRemove _ => false
  | _ => true

/-- Event is an invocation of the Blob Store store interface. -/
def Event.isBsStoreCall : Event → Bool
  | .bsStoreCall => true
  | _ => false

/-- Event is a completed write into the underlying bucket. -/
def Event.isBucketWrite : Event → Bool
  | .bucketWrite _ => true
  | _ => false

/-- Errors surfaced by the embedded JS helpers. -/
inductive JsErr
  | gridFSNotInit
  | ioFailure
  | fileNotFound
  | invalidId
deriving DecidableEq, Repr

/-- Outcome of the primitive bucket.delete call. -/
inductive BucketDelRes
  | ok
  | notFoundErr
  | ioErr
deriving DecidableEq, Repr

/-- Primitive bucket.delete: an injected fault gives an I/O error,
deleting a stored id removes it, a missing id is a FileNotFound error. -/
def GridFS.bucketDelete (flt : IOFaults) (g : GridFS) (oid : Nat) :
    BucketDelRes × GridFS :=
  if flt.deleteFault oid then (.ioErr, g)
  else if g.hasFile oid then
    (.ok, { g with files := g.files.filter (fun f => f.id != oid) })
  else (.notFoundErr, g)

/-- Upload helper uploadToGridFS from src/unnamed/part_000 lines 99 to 109
(identical in src/models/Product.js): getBucket throws when the bucket has
not initialized; otherwise the upload stream stores the file under a fresh
id, or rejects on a stream error. -/
def uploadToGridFS (flt : IOFaults) (g? : Option GridFS) (file : UpFile) :
    Except JsErr Nat × List Event × Option GridFS :=
  match g? with
  | none => (.error .gridFSNotInit, [Event.bsStoreCall], none)
  | some g =>
    if flt.uploadFault g.nextId then
      (.error .ioFailure, [Event.bsStoreCall], some g)
    else
      (.ok g.nextId, [Event.bsStoreCall, Event.bucketWrite g.nextId],
       some { nextId := g.nextId + 1,
              files := g.files ++ [⟨g.nextId, file.originalname, file.mimetype, file.buffer⟩] })

/-- Delete helper deleteFromGridFS from src/models/Product.js lines 69 to
93, the variant the route handlers import: a falsy fileId returns at once;
getBucket throws when the bucket has not initialized; an invalid ObjectId
resolves (logged, nothing to delete); bucket.delete resolving or failing
with FileNotFound both count as success; any other bucket error rejects. -/
def deleteFromGridFS (flt : IOFaults) (g? : Option GridFS)
    (fileId : Option ImageVal) :
    Except JsErr Unit × List Event × Option GridFS :=
  if truthyOpt fileId then
    match g? with
    | none => (.error .gridFSNotInit, [Event.bsDeleteCall fileId], none)
    | some g =>
      match fileId.bind ImageVal.toOId with
      | none => (.ok (), [Event.bsDeleteCall fileId], some g)
      | some oid =>
        match g.bucketDelete flt oid with
        | (.ok, g1) =>
          (.ok (), [Event.bsDeleteCall fileId, Event.bucketDelete oid], some g1)
        | (.notFoundErr, g1) =>
          (.ok (), [Event.bsDeleteCall fileId, Event.bucketDelete oid], some g1)
        | (.ioErr, g1) =>
          (.error .ioFailure, [Event.bsDeleteCall fileId, Event.bucketDelete oid], some g1)
  else (.ok (), [Event.bsDeleteCall fileId], g?)

/-- Delete helper deleteFromGridFS from src/unnamed/part_000 lines 112 to
136 (the UPDATED delete helper): a falsy fileId returns at once; getBucket
throws when the bucket has not initialized; an invalid id rejects; every
bucket.delete error rejects, FileNotFound included. -/
def deleteFromGridFSUpdated (flt : IOFaults) (g? : Option GridFS)
    (fileId : Option ImageVal) :
    Except JsErr Unit × List Event × Option GridFS :=
  if truthyOpt fileId then
    match g? with
    | none => (.error .gridFSNotInit, [Event.bsDeleteCall fileId], none)
    | some g =>
      match fileId.bind ImageVal.toOId with
      | none => (.error .invalidId, [Event.bsDeleteCall fileId], some g)
      | some oid =>
        match g.bucketDelete flt oid with
        | (.ok, g1) =>
          (.ok (), [Event.bsDeleteCall fileId, Event.bucketDelete oid], some g1)
        | (.notFoundErr, g1) =>
          (.error .fileNotFound, [Event.bsDeleteCall fileId, Event.bucketDelete oid], some g1)
        | (.ioErr, g1) =>
          (.error .ioFailure, [Event.bsDeleteCall fileId, Event.bucketDelete oid], some g1)
  else (.ok (), [Event.bsDeleteCall fileId], g?)

/-- Shade subdocument of a Product. -/
structure Shade where
  name : String
  colorCode : String
  referenceImage : Option ImageVal
  price : Nat
  stock : Nat
deriving DecidableEq, Repr

/-- Persisted Product document (fields the core logic touches). -/
structure ProductDoc where
  id : Nat
  name : String
  price : Nat
  mainImage : Option ImageVal
  shades : List Shade
  createdAt : Nat
  updatedAt : Nat
deriving DecidableEq, Repr

/-- Parsed JSON body req.body.product.  A none mainImage models the field
being absent from the JSON. -/
structure ProductPayload where
  name : String
  price : Nat
  mainImage : Option ImageVal
  shades : List Shade
deriving DecidableEq, Repr

/-- Multipart request carried into the POST and PUT handlers: parsed
payload, at most one main image file, and the shadeImages array in which a
none entry is a hole the truthiness check skips (multer itself produces
packed arrays). -/
structure ProductReq where
  payload : ProductPayload
  mainImage : Option UpFile
  shadeImages : List (Option UpFile)
deriving DecidableEq, Repr

/-- Application state: the lazily initialized bucket, the product
collection, the next document id, and the current clock. -/
structure AppState where
  bucket : Option GridFS
  docs : List ProductDoc
  nextDocId : Nat
  now : Nat
deriving DecidableEq, Repr

/-- HTTP level responses the handlers produce. -/
inductive Response
  | json200 (p : ProductDoc)
  | json200msg (m : String)
  | created201 (p : ProductDoc)
  | badRequest400 (m : String)
  | notFound404 (m : String)
  | error500 (m : String)
deriving DecidableEq, Repr

/-- Shade image loop of POST /products (src/routes/products.js lines 85 to
96): pair shade idx with shadeFiles[idx]; with a file there, upload it and
overwrite referenceImage with the fresh id; otherwise keep the payload
shade untouched.  The absolute index map of the source is rendered as
simultaneous structural recursion over the shade list and the file list. -/
def updateShadesCreate (flt : IOFaults) :
    Option GridFS → List Shade → List (Option UpFile) →
    Except JsErr (List Shade) × List Event × Option GridFS
  | g?, [], _ => (.ok [], [], g?)
  | g?, sh :: rest, [] =>
    match updateShadesCreate flt g? rest [] with
    | (.ok rs, ev, g2) => (.ok (sh :: rs), ev, g2)
    | (.error e, ev, g2) => (.error e, ev, g2)
  | g?, sh :: rest, none :: fs =>
    match updateShadesCreate flt g? rest fs with
    | (.ok rs, ev, g2) => (.ok (sh :: rs), ev, g2)
    | (.error e, ev, g2) => (.error e, ev, g2)
  | g?, sh :: rest, some f :: fs =>
    match uploadToGridFS flt g? f with
    | (.error e, ev, g1) => (.error e, ev, g1)
    | (.ok imgId, ev, g1) =>
      match updateShadesCreate flt g1 rest fs with
      | (.ok rs, ev2, g2) =>
        (.ok ({ sh with referenceImage := some (.oid imgId) } :: rs), ev ++ ev2, g2)
      | (.error e, ev2, g2) => (.error e, ev ++ ev2, g2)

/-- POST /products handler (src/routes/products.js lines 73 to 110):
missing main image is a 400 before any blob work; otherwise upload the
main image, run the shade loop, and save the document built from the
payload with mainImage and shades overridden.  Helper failures surface as
the catch-all 500. -/
def postProduct (flt : IOFaults) (st : AppState) (req : ProductReq) :
    Response × List Event × AppState :=
  match req.mainImage with
  | none => (.badRequest400 "Main image is required", [], st)
  | some mainFile =>
    match uploadToGridFS flt st.bucket mainFile with
    | (.error _, ev, g1) =>
      (.error500 "Error creating product", ev, { st with bucket := g1 })
    | (.ok mainImageId, ev, g1) =>
      match updateShadesCreate flt g1 req.payload.shades req.shadeImages with
      | (.error _, ev2, g2) =>
        (.error500 "Error creating product", ev ++ ev2, { st with bucket := g2 })
      | (.ok updatedShades, ev2, g2) =>
        let product : ProductDoc :=
          { id := st.nextDocId, name := req.payload.name,
            price := req.payload.price,
            mainImage := some (.oid mainImageId),
            shades := updatedShades,
            createdAt := st.now, updatedAt := st.now }
        (.created201 product, ev ++ ev2 ++ [Event.docSave product.id],
         { st with bucket := g2, docs := st.docs ++ [product],
                   nextDocId := st.nextDocId + 1 })

/-- Main image branch of PUT /products/:id (src/routes/products.js lines
133 to 138): with a new file, first delete the stored main image when
truthy (not caught, so a rejection aborts the update), then upload the
replacement into data.mainImage; with no new file, data.mainImage stays
whatever the payload carried. -/
def putMainStep (flt : IOFaults) (g? : Option GridFS)
    (oldMain : Option ImageVal) (payloadMain : Option ImageVal)
    (file? : Option UpFile) :
    Except JsErr (Option ImageVal) × List Event × Option GridFS :=
  match file? with
  | none => (.ok payloadMain, [], g?)
  | some f =>
    match (if truthyOpt oldMain then deleteFromGridFS flt g? oldMain
           else (.ok (), [], g?)) with
    | (.error e, ev, g1) => (.error e, ev, g1)
    | (.ok _, ev, g1) =>
      match uploadToGridFS flt g1 f with
      | (.error e, ev2, g2) => (.error e, ev ++ ev2, g2)
      | (.ok newId, ev2, g2) => (.ok (some (.oid newId)), ev ++ ev2, g2)

/-- Shade image loop of PUT /products/:id (src/routes/products.js lines
140 to 154): with a file at idx, first delete the referenceImage carried
by the PAYLOAD shade at idx when truthy (the stored document is not
consulted), then upload the new file and overwrite the reference;
otherwise keep the payload shade untouched.  Failures propagate. -/
def updateShadesPut (flt : IOFaults) :
    Option GridFS → List Shade → List (Option UpFile) →
    Except JsErr (List Shade) × List Event × Option GridFS
  | g?, [], _ => (.ok [], [], g?)
  | g?, sh :: rest, [] =>
    match updateShadesPut flt g? rest [] with
    | (.ok rs, ev, g2) => (.ok (sh :: rs), ev, g2)
    | (.error e, ev, g2) => (.error e, ev, g2)
  | g?, sh :: rest, none :: fs =>
    match updateShadesPut flt g? rest fs with
    | (.ok rs, ev, g2) => (.ok (sh :: rs), ev, g2)
    | (.error e, ev, g2) => (.error e, ev, g2)
  | g?, sh :: rest, some f :: fs =>
    match (if truthyOpt sh.referenceImage
           then deleteFromGridFS flt g? sh.referenceImage
           else (.ok (), [], g?)) with
    | (.error e, ev, g1) => (.error e, ev, g1)
    | (.ok _, ev, g1) =>
      match uploadToGridFS flt g1 f with
      | (.error e, ev2, g2) => (.error e, ev ++ ev2, g2)
      | (.ok imgId, ev2, g2) =>
        match updateShadesPut flt g2 rest fs with
        | (.ok rs, ev3, g3) =>
          (.ok ({ sh with referenceImage := some (.oid imgId) } :: rs),
           ev ++ ev2 ++ ev3, g3)
        | (.error e, ev3, g3) => (.error e, ev ++ ev2 ++ ev3, g3)

/-- PUT /products/:id handler (src/routes/products.js lines 116 to 165):
invalid id is a 400, unknown id a 404 with nothing touched; then the main
image branch and the shade loop run, data.updatedAt is set, and
findByIdAndUpdate replaces the fields present in data (mainImage only when
the payload carried one or a new file was stored).  Helper failures
surface as the catch-all 500. -/
def putProduct (flt : IOFaults) (st : AppState) (idStr : String)
    (req : ProductReq) : Response × List Event × AppState :=
  match parseObjectIdHex idStr with
  | none => (.badRequest400 "Invalid product ID.", [], st)
  | some oid =>
    match st.docs.find? (fun p => p.id == oid) with
    | none => (.notFound404 "Product not found", [], st)
    | some product =>
      match putMainStep flt st.bucket product.mainImage
              req.payload.mainImage req.mainImage with
      | (.error _, ev, g1) =>
        (.error500 "Error updating product", ev, { st with bucket := g1 })
      | (.ok dataMain, ev, g1) =>
        match updateShadesPut flt g1 req.payload.shades req.shadeImages with
        | (.error _, ev2, g2) =>
          (.error500 "Error updating product", ev ++ ev2, { st with bucket := g2 })
        | (.ok updatedShades, ev2, g2) =>
          let updated : ProductDoc :=
            { product with
              name := req.payload.name, price := req.payload.price,
              mainImage := Option.or dataMain product.mainImage,
              shades := updatedShades, updatedAt := st.now }
          (.json200 updated, ev ++ ev2 ++ [Event.docUpdate oid],
           { st with bucket := g2,
                     docs := st.docs.map (fun p => if p.id == oid then updated else p) })

/-- Image ids collected by DELETE /products/:id (src/routes/products.js
lines 184 to 189): the main image when truthy, then every truthy shade
referenceImage. -/
def collectToDelete (p : ProductDoc) : List ImageVal :=
  (match p.mainImage with
   | some v => if v.truthy then [v] else []
   | none => []) ++
  p.shades.filterMap (fun s =>
    match s.referenceImage with
    | some v => if v.truthy then some v else none
    | none => none)

/-- Blob deletion pass of DELETE /products/:id (lines 194 to 199): each
collected id goes through deleteFromGridFS with a per item catch, so every
outcome is swallowed and the next deletion always runs. -/
def deleteBlobs (flt : IOFaults) :
    Option GridFS → List ImageVal → List Event × Option GridFS
  | g?, [] => ([], g?)
  | g?, v :: rest =>
    let r := deleteFromGridFS flt g? (some v)
    let r2 := deleteBlobs flt r.2.2 rest
    (r.2.1 ++ r2.1, r2.2)

/-- DELETE /products/:id handler (src/routes/products.js lines 171 to
215): invalid id is a 400, unknown id a 404 with nothing touched; then all
collected blob ids are deleted best effort, and only afterwards is the
document removed (a removal miss would be a 500, unreachable here because
the document was just found). -/
def deleteProductRoute (flt : IOFaults) (st : AppState) (idStr : String) :
    Response × List Event × AppState :=
  match parseObjectIdHex idStr with
  | none => (.badRequest400 "Invalid product ID.", [], st)
  | some oid =>
    match st.docs.find? (fun p => p.id == oid) with
    | none => (.notFound404 "Product not found.", [], st)
    | some product =>
      let r := deleteBlobs flt st.bucket (collectToDelete product)
      if st.docs.any (fun p => p.id == oid) then
        (.json200msg "Product and all images deleted successfully.",
         r.1 ++ [Event.docRemove product.id],
         { st with bucket := r.2,
                   docs := st.docs.filter (fun p => p.id != oid) })
      else
        (.error500 "Failed to delete product document.", r.1,
         { st with bucket := r.2 })

/-- Membership of a blob id in a possibly uninitialized bucket. -/
def bucketHas : Option GridFS → Nat → Bool
  | none, _ => false
  | some g, b => g.hasFile b

/-- Whether an embedded promise settled without rejecting. -/
def exceptOk {α : Type} : Except JsErr α → Bool
  | .ok _ => true
  | .error _ => false

/-! ## Helper lemmas -/

/-- Every call to the models/Product.js delete helper contributes exactly
one Blob Store delete interface event to its trace. -/
theorem deleteFromGridFS_filter_bsDel (flt : IOFaults) (g? : Option GridFS)
    (fid : Option ImageVal) :
    (deleteFromGridFS flt g? fid).2.1.filter Event.isBsDeleteCall
      = [Event.bsDeleteCall fid] := by
  unfold deleteFromGridFS
  split
  · cases g? with
    | none => rfl
    | some g =>
      cases hb : fid.bind ImageVal.toOId with
      | none => simp [Event.isBsDeleteCall]
      | some oid =>
        rcases hd : g.bucketDelete flt oid with ⟨res, g1⟩
        cases res <;> simp [hd, Event.isBsDeleteCall, List.filter]
  · rfl

/-- The trace of the delete helper holds only blob events. -/
theorem deleteFromGridFS_blobEvents (flt : IOFaults) (g? : Option GridFS)
    (fid : Option ImageVal) :
    ∀ e ∈ (deleteFromGridFS flt g? fid).2.1, e.isBlobEvent = true := by
  unfold deleteFromGridFS
  split
  · cases g? with
    | none => simp [Event.isBlobEvent]
    | some g =>
      cases hb : fid.bind ImageVal.toOId with
      | none => simp [Event.isBlobEvent]
      | some oid =>
        rcases hd : g.bucketDelete flt oid with ⟨res, g1⟩
        cases res <;> simp [hd, Event.isBlobEvent]
  · simp [Event.isBlobEvent]

/-- The batch delete pass produces exactly one Blob Store delete call per
collected id, in order. -/
theorem deleteBlobs_filter_bsDel (flt : IOFaults) :
    ∀ (vs : List ImageVal) (g? : Option GridFS),
    (deleteBlobs flt g? vs).1.filter Event.isBsDeleteCall
      = vs.map (fun v => Event.bsDeleteCall (some v)) := by
  intro vs
  induction vs with
  | nil => intro g?; rfl
  | cons v rest ih =>
    intro g?
    simp only [deleteBlobs, List.filter_append, ih, deleteFromGridFS_filter_bsDel,
      List.map_cons, List.cons_append, List.nil_append]

/-- The batch delete pass emits only blob events. -/
theorem deleteBlobs_blobEvents (flt : IOFaults) :
    ∀ (vs : List ImageVal) (g? : Option GridFS),
    ∀ e ∈ (deleteBlobs flt g? vs).1, e.isBlobEvent = true := by
  intro vs
  induction vs with
  | nil => intro g? e he; cases he
  | cons v rest ih =>
    intro g? e he
    simp only [deleteBlobs, List.mem_append] at he
    rcases he with he | he
    · exact deleteFromGridFS_blobEvents flt g? (some v) e he
    · exact ih _ e he

/-- Size of the collected deletion list: one entry for a truthy main image
plus one per truthy shade reference. -/
theorem collectToDelete_length (p : ProductDoc) :
    (collectToDelete p).length
      = (if truthyOpt p.mainImage then 1 else 0)
        + p.shades.countP (fun s => truthyOpt s.referenceImage) := by
  unfold collectToDelete
  rw [List.length_append]
  congr 1
  · cases hm : p.mainImage with
    | none => simp [truthyOpt]
    | some v => by_cases hv : v.truthy <;> simp [truthyOpt, hv]
  · induction p.shades with
    | nil => rfl
    | cons s rest ih =>
      cases hr : s.referenceImage with
      | none => simpa [List.countP_cons, truthyOpt, hr] using ih
      | some v =>
        by_cases hv : v.truthy <;>
          simp [List.countP_cons, truthyOpt, hr, hv, ih]

/-! ## Claim theorems -/

/-- C5: every Create call without a main image attachment fails with the
validation error "Main image is required", performs zero Blob Store calls
(empty trace), and leaves the whole application state unchanged. -/
theorem create_requires_main_image (flt : IOFaults) (st : AppState)
    (req : ProductReq) (h : req.mainImage = none) :
    postProduct flt st req
      = (.badRequest400 "Main image is required", [], st) := by
  simp [postProduct, h]

/-- Witness for create_requires_main_image at a concrete request. -/
theorem create_requires_main_image_witness :
    (⟨⟨"n", 1, none, []⟩, none, []⟩ : ProductReq).mainImage = none ∧
    postProduct noFaults ⟨none, [], 0, 0⟩ ⟨⟨"n", 1, none, []⟩, none, []⟩
      = (.badRequest400 "Main image is required", [], ⟨none, [], 0, 0⟩) :=
  ⟨rfl, create_requires_main_image noFaults ⟨none, [], 0, 0⟩
    ⟨⟨"n", 1, none, []⟩, none, []⟩ rfl⟩

/-- C7: Update and Delete on a well formed id that resolves to no stored
product return NotFound with an empty trace (zero Blob Store calls) and an
unchanged application state. -/
theorem notfound_zero_calls (flt : IOFaults) (st : AppState) (idStr : String)
    (oid : Nat) (req : ProductReq)
    (hid : parseObjectIdHex idStr = some oid)
    (hnone : st.docs.find? (fun p => p.id == oid) = none) :
    putProduct flt st idStr req = (.notFound404 "Product not found", [], st) ∧
    deleteProductRoute flt st idStr
      = (.notFound404 "Product not found.", [], st) := by
  constructor
  · simp [putProduct, hid, hnone]
  · simp [deleteProductRoute, hid, hnone]

/-- Witness for notfound_zero_calls on an empty collection. -/
theorem notfound_zero_calls_witness :
    parseObjectIdHex "000000000000000000000005" = some 5 ∧
    (⟨none, [], 0, 0⟩ : AppState).docs.find? (fun p => p.id == 5) = none ∧
    (putProduct noFaults ⟨none, [], 0, 0⟩ "000000000000000000000005"
        ⟨⟨"n", 1, none, []⟩, none, []⟩
      = (.notFound404 "Product not found", [], ⟨none, [], 0, 0⟩) ∧
     deleteProductRoute noFaults ⟨none, [], 0, 0⟩ "000000000000000000000005"
      = (.notFound404 "Product not found.", [], ⟨none, [], 0, 0⟩)) :=
  ⟨by decide, rfl,
   notfound_zero_calls noFaults ⟨none, [], 0, 0⟩ "000000000000000000000005" 5
     ⟨⟨"n", 1, none, []⟩, none, []⟩ (by decide) rfl⟩

/-- C10: calling either variant of the blob delete helper with a null or
undefined file id returns success immediately, leaves the bucket untouched,
and the only trace entry is the interface call marker, which is not a
bucket interaction. -/
theorem delete_null_noop (flt : IOFaults) (g? : Option GridFS) :
    deleteFromGridFS flt g? none = (.ok (), [Event.bsDeleteCall none], g?) ∧
    deleteFromGridFSUpdated flt g? none
      = (.ok (), [Event.bsDeleteCall none], g?) ∧
    Event.isBucketEvent (Event.bsDeleteCall none) = false := by
  refine ⟨?_, ?_, rfl⟩ <;> simp [deleteFromGridFS, deleteFromGridFSUpdated, truthyOpt]

/-- C9 counterexample: a Blob Store delete invoked before the bucket has
initialized does NOT always fail with StoreUnavailable: with a null id both
helper variants return success. -/
theorem store_unready_counterexample :
    (deleteFromGridFS noFaults none none).1 = Except.ok () ∧
    (deleteFromGridFSUpdated noFaults none none).1 = Except.ok () :=
  ⟨rfl, rfl⟩

/-- C9 amended: before the bucket has initialized, every upload and every
delete called with a truthy file id fail with the GridFS not initialized
error, leave the bucket state untouched, and emit only the interface call
marker (no partial work). -/
theorem store_unready_fails (flt : IOFaults) (file : UpFile)
    (fid : Option ImageVal) (ht : truthyOpt fid = true) :
    uploadToGridFS flt none file
      = (.error .gridFSNotInit, [Event.bsStoreCall], none) ∧
    deleteFromGridFS flt none fid
      = (.error .gridFSNotInit, [Event.bsDeleteCall fid], none) ∧
    deleteFromGridFSUpdated flt none fid
      = (.error .gridFSNotInit, [Event.bsDeleteCall fid], none) := by
  refine ⟨rfl, ?_, ?_⟩ <;> simp [deleteFromGridFS, deleteFromGridFSUpdated, ht]

/-- Witness for store_unready_fails at a concrete id and file. -/
theorem store_unready_fails_witness :
    truthyOpt (some (ImageVal.oid 3)) = true ∧
    (uploadToGridFS noFaults none ⟨"a", "b", []⟩
       = (.error .gridFSNotInit, [Event.bsStoreCall], none) ∧
     deleteFromGridFS noFaults none (some (ImageVal.oid 3))
       = (.error .gridFSNotInit, [Event.bsDeleteCall (some (ImageVal.oid 3))], none) ∧
     deleteFromGridFSUpdated noFaults none (some (ImageVal.oid 3))
       = (.error .gridFSNotInit, [Event.bsDeleteCall (some (ImageVal.oid 3))], none)) :=
  ⟨rfl, store_unready_fails noFaults ⟨"a", "b", []⟩ (some (ImageVal.oid 3)) rfl⟩

/-- C3 counterexample: the UPDATED delete helper of src/unnamed/part_000 is
not idempotent: deleting a never stored id on a ready bucket raises the
FileNotFound error instead of returning success, with no I/O fault
injected. -/
theorem blob_delete_idempotent_counterexample :
    (deleteFromGridFSUpdated noFaults (some ⟨0, []⟩) (some (ImageVal.oid 0))).1
      = Except.error JsErr.fileNotFound := by
  rfl

/-- C3 amended: the delete helper of src/models/Product.js is idempotent:
absent an injected I/O fault on the id, deleting it succeeds and deleting
it again on the resulting bucket succeeds as well (hence a never stored id
also succeeds, the bucket being arbitrary), and an error arises exactly on
a genuine I/O fault, in which case it is IOFailure.  The part_000 variant
instead propagates the not found error (see the counterexample). -/
theorem blob_delete_idempotent (flt : IOFaults) (g : GridFS) (b : Nat)
    (hf : flt.deleteFault b = false) :
    (deleteFromGridFS flt (some g) (some (ImageVal.oid b))).1 = .ok () ∧
    (deleteFromGridFS flt
        (deleteFromGridFS flt (some g) (some (ImageVal.oid b))).2.2
        (some (ImageVal.oid b))).1 = .ok () ∧
    (∀ b2, flt.deleteFault b2 = true →
      (deleteFromGridFS flt (some g) (some (ImageVal.oid b2))).1
        = .error .ioFailure) := by
  have key : ∀ g' : GridFS,
      (deleteFromGridFS flt (some g') (some (ImageVal.oid b))).1 = .ok ()
      ∧ ∃ g2, (deleteFromGridFS flt (some g') (some (ImageVal.oid b))).2.2
          = some g2 := by
    intro g'
    simp only [deleteFromGridFS, truthyOpt, ImageVal.truthy, Option.bind,
      ImageVal.toOId, GridFS.bucketDelete, hf, if_true, Bool.false_eq_true,
      if_false]
    by_cases hmem : g'.hasFile b <;> simp [hmem]
  refine ⟨(key g).1, ?_, ?_⟩
  · rcases (key g).2 with ⟨g2, hg2⟩
    rw [hg2]
    exact (key g2).1
  · intro b2 hb2
    simp [deleteFromGridFS, truthyOpt, ImageVal.truthy, ImageVal.toOId,
      GridFS.bucketDelete, hb2]

/-- Witness for blob_delete_idempotent: double delete of id 7 on a bucket
holding only id 7, and an injected fault on id 9 giving IOFailure. -/
theorem blob_delete_idempotent_witness :
    (⟨fun _ => false, fun n => n == 9⟩ : IOFaults).deleteFault 7 = false ∧
    ((deleteFromGridFS ⟨fun _ => false, fun n => n == 9⟩
        (some ⟨8, [⟨7, "f", "t", []⟩]⟩) (some (ImageVal.oid 7))).1 = .ok () ∧
     (deleteFromGridFS ⟨fun _ => false, fun n => n == 9⟩
        (deleteFromGridFS ⟨fun _ => false, fun n => n == 9⟩
          (some ⟨8, [⟨7, "f", "t", []⟩]⟩) (some (ImageVal.oid 7))).2.2
        (some (ImageVal.oid 7))).1 = .ok () ∧
     (∀ b2, (⟨fun _ => false, fun n => n == 9⟩ : IOFaults).deleteFault b2 = true →
       (deleteFromGridFS ⟨fun _ => false, fun n => n == 9⟩
          (some ⟨8, [⟨7, "f", "t", []⟩]⟩) (some (ImageVal.oid b2))).1
         = .error .ioFailure)) :=
  ⟨rfl, blob_delete_idempotent ⟨fun _ => false, fun n => n == 9⟩
    ⟨8, [⟨7, "f", "t", []⟩]⟩ 7 rfl⟩

/-- C1: Delete on an existing product issues exactly one Blob Store delete
call per owned truthy blob reference (main image plus shade references, so
1 + K such calls with a main image and K referenced shades, and zero with
no images), for EVERY fault oracle — so no deletion failure aborts the
remaining deletions or the document removal — and the document removal
event comes strictly after the whole blob deletion trace, which contains
no document event. -/
theorem delete_route_exhaustive (flt : IOFaults) (st : AppState)
    (idStr : String) (oid : Nat) (product : ProductDoc)
    (hid : parseObjectIdHex idStr = some oid)
    (hfind : st.docs.find? (fun p => p.id == oid) = some product) :
    ∃ tr0 st2,
      deleteProductRoute flt st idStr
        = (.json200msg "Product and all images deleted successfully.",
           tr0 ++ [Event.docRemove product.id], st2) ∧
      tr0.filter Event.isBsDeleteCall
        = (collectToDelete product).map (fun v => Event.bsDeleteCall (some v)) ∧
      (collectToDelete product).length
        = (if truthyOpt product.mainImage then 1 else 0)
          + product.shades.countP (fun s => truthyOpt s.referenceImage) ∧
      (∀ e ∈ tr0, e.isBlobEvent = true) := by
  have hmem : product ∈ st.docs := List.mem_of_find?_eq_some hfind
  have hpid : (product.id == oid) = true := by
    simpa using List.find?_some hfind
  have hany : st.docs.any (fun p => p.id == oid) = true :=
    List.any_eq_true.mpr ⟨product, hmem, by simpa using hpid⟩
  refine ⟨(deleteBlobs flt st.bucket (collectToDelete product)).1,
    { st with bucket := (deleteBlobs flt st.bucket (collectToDelete product)).2,
              docs := st.docs.filter (fun p => p.id != oid) }, ?_, ?_, ?_, ?_⟩
  · simp only [deleteProductRoute, hid, hfind, hany, if_true]
  · exact deleteBlobs_filter_bsDel flt _ _
  · exact collectToDelete_length product
  · exact deleteBlobs_blobEvents flt _ _

/-- Witness for delete_route_exhaustive: a product with a main image and
two referenced shades, under an oracle that faults one of the deletions. -/
theorem delete_route_exhaustive_witness :
    parseObjectIdHex "000000000000000000000001" = some 1 ∧
    (⟨some ⟨200, [⟨100, "x", "y", []⟩, ⟨101, "x", "y", []⟩, ⟨102, "x", "y", []⟩]⟩,
      [(⟨1, "p", 10, some (ImageVal.oid 100),
        [(⟨"s", "#fff", some (ImageVal.oid 101), 5, 3⟩ : Shade),
         (⟨"t", "#000", some (ImageVal.oid 102), 6, 4⟩ : Shade)],
        0, 0⟩ : ProductDoc)], 2, 7⟩ : AppState).docs.find? (fun p => p.id == 1)
      = some (⟨1, "p", 10, some (ImageVal.oid 100),
          [(⟨"s", "#fff", some (ImageVal.oid 101), 5, 3⟩ : Shade),
           (⟨"t", "#000", some (ImageVal.oid 102), 6, 4⟩ : Shade)],
          0, 0⟩ : ProductDoc) ∧
    ∃ tr0 st2,
      deleteProductRoute ⟨fun _ => false, fun n => n == 101⟩
          ⟨some ⟨200, [⟨100, "x", "y", []⟩, ⟨101, "x", "y", []⟩, ⟨102, "x", "y", []⟩]⟩,
           [(⟨1, "p", 10, some (ImageVal.oid 100),
             [(⟨"s", "#fff", some (ImageVal.oid 101), 5, 3⟩ : Shade),
              (⟨"t", "#000", some (ImageVal.oid 102), 6, 4⟩ : Shade)],
             0, 0⟩ : ProductDoc)], 2, 7⟩ "000000000000000000000001"
        = (.json200msg "Product and all images deleted successfully.",
           tr0 ++ [Event.docRemove 1], st2) ∧
      tr0.filter Event.isBsDeleteCall
        = (collectToDelete (⟨1, "p", 10, some (ImageVal.oid 100),
            [(⟨"s", "#fff", some (ImageVal.oid 101), 5, 3⟩ : Shade),
             (⟨"t", "#000", some (ImageVal.oid 102), 6, 4⟩ : Shade)],
            0, 0⟩ : ProductDoc)).map (fun v => Event.bsDeleteCall (some v)) ∧
      (collectToDelete (⟨1, "p", 10, some (ImageVal.oid 100),
          [(⟨"s", "#fff", some (ImageVal.oid 101), 5, 3⟩ : Shade),
           (⟨"t", "#000", some (ImageVal.oid 102), 6, 4⟩ : Shade)],
          0, 0⟩ : ProductDoc)).length
        = (if truthyOpt (some (ImageVal.oid 100)) then 1 else 0)
          + List.countP (fun s => truthyOpt s.referenceImage)
              [(⟨"s", "#fff", some (ImageVal.oid 101), 5, 3⟩ : Shade),
               (⟨"t", "#000", some (ImageVal.oid 102), 6, 4⟩ : Shade)] ∧
      (∀ e ∈ tr0, e.isBlobEvent = true) :=
  ⟨by decide, rfl,
   delete_route_exhaustive ⟨fun _ => false, fun n => n == 101⟩
     ⟨some ⟨200, [⟨100, "x", "y", []⟩, ⟨101, "x", "y", []⟩, ⟨102, "x", "y", []⟩]⟩,
      [(⟨1, "p", 10, some (ImageVal.oid 100),
        [(⟨"s", "#fff", some (ImageVal.oid 101), 5, 3⟩ : Shade),
         (⟨"t", "#000", some (ImageVal.oid 102), 6, 4⟩ : Shade)],
        0, 0⟩ : ProductDoc)], 2, 7⟩ "000000000000000000000001" 1
     (⟨1, "p", 10, some (ImageVal.oid 100),
       [(⟨"s", "#fff", some (ImageVal.oid 101), 5, 3⟩ : Shade),
        (⟨"t", "#000", some (ImageVal.oid 102), 6, 4⟩ : Shade)],
       0, 0⟩ : ProductDoc) (by decide) rfl⟩

/-- Fault free create shade loop on a packed file list: it succeeds and
pairs shade i with file i, allocating consecutive fresh ids from the
bucket cursor; shades beyond the file list pass through verbatim. -/
theorem updateShadesCreate_packed (shades : List Shade) :
    ∀ (ups : List UpFile) (g : GridFS),
    ∃ out ev g2,
      updateShadesCreate noFaults (some g) shades (ups.map some)
        = (.ok out, ev, some g2) ∧
      out.length = shades.length ∧
      ∀ i, out[i]? = (shades[i]?).map (fun s =>
          if i < ups.length
          then { s with referenceImage := some (ImageVal.oid (g.nextId + i)) }
          else s) := by
  induction shades with
  | nil =>
    intro ups g
    refine ⟨[], [], g, rfl, rfl, fun i => by simp⟩
  | cons sh rest ih =>
    intro ups g
    cases ups with
    | nil =>
      obtain ⟨out, ev, g2, heq, hlen, hidx⟩ := ih [] g
      refine ⟨sh :: out, ev, g2, ?_, by simp [hlen], ?_⟩
      · simp only [List.map_nil] at heq
        simp only [updateShadesCreate, heq]
      · intro i
        cases i with
        | zero => simp
        | succ n =>
          have h := hidx n
          simpa using h
    | cons u us =>
      obtain ⟨out, ev, g2, heq, hlen, hidx⟩ :=
        ih us ⟨g.nextId + 1, g.files ++ [⟨g.nextId, u.originalname, u.mimetype, u.buffer⟩]⟩
      refine ⟨{ sh with referenceImage := some (ImageVal.oid g.nextId) } :: out,
        [Event.bsStoreCall, Event.bucketWrite g.nextId] ++ ev, g2, ?_, by simp [hlen], ?_⟩
      · simp only [noFaults] at heq
        simp [List.map_cons, updateShadesCreate, uploadToGridFS, noFaults, heq]
      · intro i
        cases i with
        | zero => simp
        | succ n =>
          have h := hidx n
          simp only [List.getElem?_cons_succ]
          cases hr : rest[n]? with
          | none => simp [hr] at h ⊢; exact h
          | some s =>
            simp only [hr, Option.map_some] at h ⊢
            rw [h]
            by_cases hlt : n < us.length
            · have harith : g.nextId + 1 + n = g.nextId + (n + 1) := by omega
              simp [hlt, Nat.succ_lt_succ_iff, harith]
            · simp [hlt, Nat.succ_lt_succ_iff]

/-- C4: on a fault free Create with a main image, a shade list of length N
and M packed shade image attachments, the persisted document pairs shade i
with file i: every shade at an index below M gets the freshly stored blob
id (the consecutive id the bucket allocated for that upload, any client
sent reference discarded), and every shade at an index at or above M keeps
its payload supplied shade record, referenceImage included, verbatim. -/
theorem create_positional_pairing (st : AppState) (g : GridFS)
    (req : ProductReq) (f : UpFile) (ups : List UpFile)
    (hb : st.bucket = some g) (hm : req.mainImage = some f)
    (hp : req.shadeImages = ups.map some) :
    ∃ p ev st2,
      postProduct noFaults st req = (.created201 p, ev, st2) ∧
      p.mainImage = some (ImageVal.oid g.nextId) ∧
      p.shades.length = req.payload.shades.length ∧
      ∀ i, p.shades[i]? = (req.payload.shades[i]?).map (fun s =>
          if i < ups.length
          then { s with referenceImage := some (ImageVal.oid (g.nextId + 1 + i)) }
          else s) := by
  obtain ⟨out, ev2, g2, heq, hlen, hidx⟩ :=
    updateShadesCreate_packed req.payload.shades ups
      ⟨g.nextId + 1, g.files ++ [⟨g.nextId, f.originalname, f.mimetype, f.buffer⟩]⟩
  refine ⟨{ id := st.nextDocId, name := req.payload.name, price := req.payload.price,
            mainImage := some (ImageVal.oid g.nextId), shades := out,
            createdAt := st.now, updatedAt := st.now },
          [Event.bsStoreCall, Event.bucketWrite g.nextId] ++ ev2 ++ [Event.docSave st.nextDocId],
          { st with bucket := some g2,
                    docs := st.docs ++
                      [⟨st.nextDocId, req.payload.name, req.payload.price,
                        some (ImageVal.oid g.nextId), out, st.now, st.now⟩],
                    nextDocId := st.nextDocId + 1 },
          ?_, rfl, by simpa using hlen, ?_⟩
  · simp only [noFaults] at heq
    simp [postProduct, hm, hb, hp, uploadToGridFS, noFaults, heq]
  · intro i
    simpa using hidx i

/-- Witness for create_positional_pairing: two shades, one attachment. -/
theorem create_positional_pairing_witness :
    (⟨some ⟨10, []⟩, [], 0, 7⟩ : AppState).bucket = some ⟨10, []⟩ ∧
    (⟨⟨"n", 3, none,
        [(⟨"s0", "#a", some (ImageVal.legacy "keep0"), 1, 1⟩ : Shade),
         (⟨"s1", "#b", some (ImageVal.legacy "keep1"), 2, 2⟩ : Shade)]⟩,
      some ⟨"m.png", "image/png", [9]⟩,
      [some ⟨"s.png", "image/png", [8]⟩]⟩ : ProductReq).mainImage
      = some ⟨"m.png", "image/png", [9]⟩ ∧
    (⟨⟨"n", 3, none,
        [(⟨"s0", "#a", some (ImageVal.legacy "keep0"), 1, 1⟩ : Shade),
         (⟨"s1", "#b", some (ImageVal.legacy "keep1"), 2, 2⟩ : Shade)]⟩,
      some ⟨"m.png", "image/png", [9]⟩,
      [some ⟨"s.png", "image/png", [8]⟩]⟩ : ProductReq).shadeImages
      = [⟨"s.png", "image/png", [8]⟩].map some ∧
    ∃ p ev st2,
      postProduct noFaults ⟨some ⟨10, []⟩, [], 0, 7⟩
          ⟨⟨"n", 3, none,
            [(⟨"s0", "#a", some (ImageVal.legacy "keep0"), 1, 1⟩ : Shade),
             (⟨"s1", "#b", some (ImageVal.legacy "keep1"), 2, 2⟩ : Shade)]⟩,
           some ⟨"m.png", "image/png", [9]⟩,
           [some ⟨"s.png", "image/png", [8]⟩]⟩
        = (.created201 p, ev, st2) ∧
      p.mainImage = some (ImageVal.oid 10) ∧
      p.shades.length
        = ([(⟨"s0", "#a", some (ImageVal.legacy "keep0"), 1, 1⟩ : Shade),
            (⟨"s1", "#b", some (ImageVal.legacy "keep1"), 2, 2⟩ : Shade)] : List Shade).length ∧
      ∀ i, p.shades[i]?
        = (([(⟨"s0", "#a", some (ImageVal.legacy "keep0"), 1, 1⟩ : Shade),
             (⟨"s1", "#b", some (ImageVal.legacy "keep1"), 2, 2⟩ : Shade)] : List Shade)[i]?).map
            (fun s => if i < ([⟨"s.png", "image/png", [8]⟩] : List UpFile).length
              then { s with referenceImage := some (ImageVal.oid (10 + 1 + i)) }
              else s) :=
  ⟨rfl, rfl, rfl,
   create_positional_pairing ⟨some ⟨10, []⟩, [], 0, 7⟩ ⟨10, []⟩
     ⟨⟨"n", 3, none,
       [(⟨"s0", "#a", some (ImageVal.legacy "keep0"), 1, 1⟩ : Shade),
        (⟨"s1", "#b", some (ImageVal.legacy "keep1"), 2, 2⟩ : Shade)]⟩,
      some ⟨"m.png", "image/png", [9]⟩,
      [some ⟨"s.png", "image/png", [8]⟩]⟩
     ⟨"m.png", "image/png", [9]⟩ [⟨"s.png", "image/png", [8]⟩] rfl rfl rfl⟩

/-- C6 counterexample: Update with no new main image file does NOT leave
the stored main image untouched: the stored value oid 5 is overwritten by
the oid 9 the payload carries, because data.mainImage is passed through to
findByIdAndUpdate. -/
theorem update_main_passthrough_counterexample :
    (putProduct noFaults
        ⟨some ⟨20, []⟩, [⟨1, "p", 10, some (ImageVal.oid 5), [], 0, 0⟩], 2, 7⟩
        "000000000000000000000001"
        ⟨⟨"n", 3, some (ImageVal.oid 9), []⟩, none, []⟩).1
      = .json200 ⟨1, "n", 3, some (ImageVal.oid 9), [], 0, 7⟩ ∧
    (some (ImageVal.oid 9) : Option ImageVal) ≠ some (ImageVal.oid 5) :=
  ⟨rfl, by decide⟩

/-- C6 amended: on an Update with no new main image file, data.mainImage
is passed through from the payload: the persisted main image is the
payload value when the payload carries the field, and only when the
payload omits the field is the prior stored value kept. -/
theorem update_main_passthrough (flt : IOFaults) (st : AppState)
    (idStr : String) (oid : Nat) (product : ProductDoc) (req : ProductReq)
    (us : List Shade) (ev : List Event) (g2 : Option GridFS)
    (hid : parseObjectIdHex idStr = some oid)
    (hfind : st.docs.find? (fun p => p.id == oid) = some product)
    (hnf : req.mainImage = none)
    (hsh : updateShadesPut flt st.bucket req.payload.shades req.shadeImages
      = (.ok us, ev, g2)) :
    ∃ st2, putProduct flt st idStr req
      = (.json200 { product with
          name := req.payload.name, price := req.payload.price,
          mainImage := Option.or req.payload.mainImage product.mainImage,
          shades := us, updatedAt := st.now },
         ev ++ [Event.docUpdate oid], st2) := by
  refine ⟨{ st with
            bucket := g2,
            docs := st.docs.map (fun p => if p.id == oid then
              { product with
                name := req.payload.name, price := req.payload.price,
                mainImage := Option.or req.payload.mainImage product.mainImage,
                shades := us, updatedAt := st.now } else p) }, ?_⟩
  simp only [putProduct, hid, hfind, putMainStep, hnf, hsh, List.nil_append]

/-- Witness for update_main_passthrough: payload carrying oid 9 over a
stored oid 5, no new file. -/
theorem update_main_passthrough_witness :
    parseObjectIdHex "000000000000000000000001" = some 1 ∧
    (⟨some ⟨20, []⟩, [⟨1, "p", 10, some (ImageVal.oid 5), [], 0, 0⟩], 2, 7⟩
        : AppState).docs.find? (fun p => p.id == 1)
      = some ⟨1, "p", 10, some (ImageVal.oid 5), [], 0, 0⟩ ∧
    updateShadesPut noFaults (some ⟨20, []⟩) [] []
      = (.ok [], [], some ⟨20, []⟩) ∧
    ∃ st2, putProduct noFaults
        ⟨some ⟨20, []⟩, [⟨1, "p", 10, some (ImageVal.oid 5), [], 0, 0⟩], 2, 7⟩
        "000000000000000000000001"
        ⟨⟨"n", 3, some (ImageVal.oid 9), []⟩, none, []⟩
      = (.json200 ⟨1, "n", 3,
           Option.or (some (ImageVal.oid 9)) (some (ImageVal.oid 5)), [], 0, 7⟩,
         [] ++ [Event.docUpdate 1], st2) :=
  ⟨by decide, rfl, rfl,
   update_main_passthrough noFaults
     ⟨some ⟨20, []⟩, [⟨1, "p", 10, some (ImageVal.oid 5), [], 0, 0⟩], 2, 7⟩
     "000000000000000000000001" 1 ⟨1, "p", 10, some (ImageVal.oid 5), [], 0, 0⟩
     ⟨⟨"n", 3, some (ImageVal.oid 9), []⟩, none, []⟩ [] [] (some ⟨20, []⟩)
     (by decide) rfl rfl rfl⟩

/-- C2 counterexample: Update of a 3 shade product with a new file only at
shade index 2 does NOT delete the blob referenced by the stored document
(oid 77 at shade index 2): the handler consults only the payload shade,
whose referenceImage here is empty, so the request issues no delete call
at all and blob 77 is still stored afterwards, while the update succeeds. -/
theorem update_shade_delete_counterexample :
    (putProduct noFaults
        ⟨some ⟨30, [⟨77, "f", "t", []⟩]⟩,
         [⟨1, "p", 10, none,
           [⟨"a", "#1", none, 1, 1⟩, ⟨"b", "#2", none, 2, 2⟩,
            ⟨"c", "#3", some (ImageVal.oid 77), 3, 3⟩], 0, 0⟩], 2, 9⟩
        "000000000000000000000001"
        ⟨⟨"n", 3, none,
          [⟨"a", "#1", some (ImageVal.legacy "x0"), 1, 1⟩,
           ⟨"b", "#2", some (ImageVal.legacy "x1"), 2, 2⟩,
           ⟨"c", "#3", none, 3, 3⟩]⟩,
         none, [none, none, some ⟨"new.png", "image/png", [4]⟩]⟩).2.1.filter
      Event.isDeleteEvent = [] ∧
    bucketHas (putProduct noFaults
        ⟨some ⟨30, [⟨77, "f", "t", []⟩]⟩,
         [⟨1, "p", 10, none,
           [⟨"a", "#1", none, 1, 1⟩, ⟨"b", "#2", none, 2, 2⟩,
            ⟨"c", "#3", some (ImageVal.oid 77), 3, 3⟩], 0, 0⟩], 2, 9⟩
        "000000000000000000000001"
        ⟨⟨"n", 3, none,
          [⟨"a", "#1", some (ImageVal.legacy "x0"), 1, 1⟩,
           ⟨"b", "#2", some (ImageVal.legacy "x1"), 2, 2⟩,
           ⟨"c", "#3", none, 3, 3⟩]⟩,
         none, [none, none, some ⟨"new.png", "image/png", [4]⟩]⟩).2.2.bucket 77
      = true ∧
    (putProduct noFaults
        ⟨some ⟨30, [⟨77, "f", "t", []⟩]⟩,
         [⟨1, "p", 10, none,
           [⟨"a", "#1", none, 1, 1⟩, ⟨"b", "#2", none, 2, 2⟩,
            ⟨"c", "#3", some (ImageVal.oid 77), 3, 3⟩], 0, 0⟩], 2, 9⟩
        "000000000000000000000001"
        ⟨⟨"n", 3, none,
          [⟨"a", "#1", some (ImageVal.legacy "x0"), 1, 1⟩,
           ⟨"b", "#2", some (ImageVal.legacy "x1"), 2, 2⟩,
           ⟨"c", "#3", none, 3, 3⟩]⟩,
         none, [none, none, some ⟨"new.png", "image/png", [4]⟩]⟩).1
      = .json200 ⟨1, "n", 3, none,
          [⟨"a", "#1", some (ImageVal.legacy "x0"), 1, 1⟩,
           ⟨"b", "#2", some (ImageVal.legacy "x1"), 2, 2⟩,
           ⟨"c", "#3", some (ImageVal.oid 30), 3, 3⟩], 0, 9⟩ :=
  ⟨rfl, rfl, rfl⟩

/-- C2 amended: on an Update of a 3 shade product with a new file only at
shade index 2, shades 0 and 1 are persisted exactly as supplied in the
payload, and the blob referenced by the PAYLOAD shade at index 2 (not the
stored document shade — the handler never consults it) is the one deleted,
the delete call preceding the fresh upload in the trace. -/
theorem update_shade_replacement (flt : IOFaults) (st : AppState)
    (idStr : String) (oid : Nat) (product : ProductDoc) (req : ProductReq)
    (s0 s1 s2 : Shade) (f : UpFile) (g : GridFS) (b : Nat)
    (hid : parseObjectIdHex idStr = some oid)
    (hfind : st.docs.find? (fun p => p.id == oid) = some product)
    (hb : st.bucket = some g)
    (hnm : req.mainImage = none)
    (hsh : req.payload.shades = [s0, s1, s2])
    (hfi : req.shadeImages = [none, none, some f])
    (hr2 : s2.referenceImage = some (ImageVal.oid b))
    (hdf : flt.deleteFault b = false)
    (huf : flt.uploadFault g.nextId = false) :
    ∃ st2, putProduct flt st idStr req
      = (.json200 { product with
          name := req.payload.name, price := req.payload.price,
          mainImage := Option.or req.payload.mainImage product.mainImage,
          shades := [s0, s1, { s2 with referenceImage := some (ImageVal.oid g.nextId) }],
          updatedAt := st.now },
         [Event.bsDeleteCall (some (ImageVal.oid b)), Event.bucketDelete b,
          Event.bsStoreCall, Event.bucketWrite g.nextId, Event.docUpdate oid],
         st2) := by
  have hloop : updateShadesPut flt (some g) [s0, s1, s2] [none, none, some f]
      = (.ok [s0, s1, { s2 with referenceImage := some (ImageVal.oid g.nextId) }],
         [Event.bsDeleteCall (some (ImageVal.oid b)), Event.bucketDelete b,
          Event.bsStoreCall, Event.bucketWrite g.nextId],
         some (if g.hasFile b
           then ⟨g.nextId + 1, (g.files.filter (fun x => x.id != b))
                  ++ [⟨g.nextId, f.originalname, f.mimetype, f.buffer⟩]⟩
           else ⟨g.nextId + 1, g.files
                  ++ [⟨g.nextId, f.originalname, f.mimetype, f.buffer⟩]⟩)) := by
    by_cases hmem : g.hasFile b <;>
      simp [updateShadesPut, hr2, truthyOpt, ImageVal.truthy, deleteFromGridFS,
        ImageVal.toOId, GridFS.bucketDelete, hdf, hmem, uploadToGridFS, huf]
  refine ⟨{ st with
            bucket := (updateShadesPut flt (some g) [s0, s1, s2]
              [none, none, some f]).2.2,
            docs := st.docs.map (fun p => if p.id == oid then
              { product with
                name := req.payload.name, price := req.payload.price,
                mainImage := Option.or req.payload.mainImage product.mainImage,
                shades := [s0, s1,
                  { s2 with referenceImage := some (ImageVal.oid g.nextId) }],
                updatedAt := st.now } else p) }, ?_⟩
  simp only [putProduct, hid, hfind, putMainStep, hnm, hb, hsh, hfi, hloop,
    List.nil_append, List.cons_append, List.singleton_append]

/-- Witness for update_shade_replacement: the payload echoes the stored
oid 77 back at shade index 2 and attaches a new file there. -/
theorem update_shade_replacement_witness :
    parseObjectIdHex "000000000000000000000001" = some 1 ∧
    (⟨some ⟨30, [⟨77, "f", "t", []⟩]⟩,
      [⟨1, "p", 10, none,
        [⟨"a", "#1", none, 1, 1⟩, ⟨"b", "#2", none, 2, 2⟩,
         ⟨"c", "#3", some (ImageVal.oid 77), 3, 3⟩], 0, 0⟩], 2, 9⟩
      : AppState).docs.find? (fun p => p.id == 1)
      = some ⟨1, "p", 10, none,
          [⟨"a", "#1", none, 1, 1⟩, ⟨"b", "#2", none, 2, 2⟩,
           ⟨"c", "#3", some (ImageVal.oid 77), 3, 3⟩], 0, 0⟩ ∧
    (⟨"c", "#3", some (ImageVal.oid 77), 3, 3⟩ : Shade).referenceImage
      = some (ImageVal.oid 77) ∧
    noFaults.deleteFault 77 = false ∧
    noFaults.uploadFault 30 = false ∧
    ∃ st2, putProduct noFaults
        ⟨some ⟨30, [⟨77, "f", "t", []⟩]⟩,
         [⟨1, "p", 10, none,
           [⟨"a", "#1", none, 1, 1⟩, ⟨"b", "#2", none, 2, 2⟩,
            ⟨"c", "#3", some (ImageVal.oid 77), 3, 3⟩], 0, 0⟩], 2, 9⟩
        "000000000000000000000001"
        ⟨⟨"n", 3, none,
          [⟨"a", "#1", some (ImageVal.legacy "x0"), 1, 1⟩,
           ⟨"b", "#2", some (ImageVal.legacy "x1"), 2, 2⟩,
           ⟨"c", "#3", some (ImageVal.oid 77), 3, 3⟩]⟩,
         none, [none, none, some ⟨"new.png", "image/png", [4]⟩]⟩
      = (.json200 ⟨1, "n", 3, none,
           [⟨"a", "#1", some (ImageVal.legacy "x0"), 1, 1⟩,
            ⟨"b", "#2", some (ImageVal.legacy "x1"), 2, 2⟩,
            ⟨"c", "#3", some (ImageVal.oid 30), 3, 3⟩], 0, 9⟩,
         [Event.bsDeleteCall (some (ImageVal.oid 77)), Event.bucketDelete 77,
          Event.bsStoreCall, Event.bucketWrite 30, Event.docUpdate 1],
         st2) :=
  ⟨by decide, rfl, rfl, rfl, rfl,
   update_shade_replacement noFaults
     ⟨some ⟨30, [⟨77, "f", "t", []⟩]⟩,
      [⟨1, "p", 10, none,
        [⟨"a", "#1", none, 1, 1⟩, ⟨"b", "#2", none, 2, 2⟩,
         ⟨"c", "#3", some (ImageVal.oid 77), 3, 3⟩], 0, 0⟩], 2, 9⟩
     "000000000000000000000001" 1
     ⟨1, "p", 10, none,
      [⟨"a", "#1", none, 1, 1⟩, ⟨"b", "#2", none, 2, 2⟩,
       ⟨"c", "#3", some (ImageVal.oid 77), 3, 3⟩], 0, 0⟩
     ⟨⟨"n", 3, none,
       [⟨"a", "#1", some (ImageVal.legacy "x0"), 1, 1⟩,
        ⟨"b", "#2", some (ImageVal.legacy "x1"), 2, 2⟩,
        ⟨"c", "#3", some (ImageVal.oid 77), 3, 3⟩]⟩,
      none, [none, none, some ⟨"new.png", "image/png", [4]⟩]⟩
     ⟨"a", "#1", some (ImageVal.legacy "x0"), 1, 1⟩
     ⟨"b", "#2", some (ImageVal.legacy "x1"), 2, 2⟩
     ⟨"c", "#3", some (ImageVal.oid 77), 3, 3⟩
     ⟨"new.png", "image/png", [4]⟩ ⟨30, [⟨77, "f", "t", []⟩]⟩ 77
     (by decide) rfl rfl rfl rfl rfl rfl rfl rfl⟩

/-- An upload never emits deletion activity. -/
theorem upload_no_deletes (flt : IOFaults) (g? : Option GridFS) (f : UpFile) :
    (uploadToGridFS flt g? f).2.1.filter Event.isDeleteEvent = [] := by
  cases g? with
  | none => rfl
  | some g =>
    by_cases hf : flt.uploadFault g.nextId <;>
      simp [uploadToGridFS, hf, Event.isDeleteEvent]

/-- A blob written by an upload is stored afterwards, and an upload never
removes an already stored blob. -/
theorem upload_writes_persist (flt : IOFaults) (g? : Option GridFS)
    (f : UpFile) (b : Nat) :
    (Event.bucketWrite b ∈ (uploadToGridFS flt g? f).2.1 →
      bucketHas (uploadToGridFS flt g? f).2.2 b = true) ∧
    (bucketHas g? b = true →
      bucketHas (uploadToGridFS flt g? f).2.2 b = true) := by
  cases g? with
  | none =>
    constructor
    · intro h; simp [uploadToGridFS] at h
    · intro h; simp [bucketHas] at h
  | some g =>
    by_cases hf : flt.uploadFault g.nextId
    · constructor
      · intro h; simp [uploadToGridFS, hf] at h
      · intro h; simpa [uploadToGridFS, hf] using h
    · constructor
      · intro h
        simp only [uploadToGridFS, hf, Bool.false_eq_true, if_false,
          List.mem_cons, List.mem_singleton] at h
        rcases h with h | h | h
        · cases h
        · cases h
          simp [uploadToGridFS, hf, bucketHas, GridFS.hasFile, List.any_append]
        · cases h
      · intro h
        simp only [bucketHas, GridFS.hasFile] at h
        simp [uploadToGridFS, hf, bucketHas, GridFS.hasFile, List.any_append, h]

/-- The create shade loop never emits deletion activity. -/
theorem createLoop_no_deletes (flt : IOFaults) (shades : List Shade) :
    ∀ (files : List (Option UpFile)) (g? : Option GridFS),
    (updateShadesCreate flt g? shades files).2.1.filter Event.isDeleteEvent
      = [] := by
  induction shades with
  | nil => intro files g?; rfl
  | cons sh rest ih =>
    intro files g?
    have step : ∀ (fs : List (Option UpFile)) (gg : Option GridFS),
        (match updateShadesCreate flt gg rest fs with
          | (Except.ok rs, ev, g2) => ((Except.ok (sh :: rs) : Except JsErr (List Shade)), ev, g2)
          | (Except.error e, ev, g2) => (Except.error e, ev, g2)).2.1.filter
            Event.isDeleteEvent = [] := by
      intro fs gg
      rcases h : updateShadesCreate flt gg rest fs with ⟨r, ev, g2⟩
      have hev : ev.filter Event.isDeleteEvent = [] := by
        have h2 := ih fs gg
        rw [h] at h2
        exact h2
      cases r <;> simpa using hev
    cases files with
    | nil => exact step [] g?
    | cons of fs =>
      cases of with
      | none => exact step fs g?
      | some f =>
        rcases hu : uploadToGridFS flt g? f with ⟨ru, evu, g1⟩
        have hevu : evu.filter Event.isDeleteEvent = [] := by
          have h2 := upload_no_deletes flt g? f
          rw [hu] at h2
          exact h2
        cases ru with
        | error e => simp [updateShadesCreate, hu, hevu]
        | ok imgId =>
          rcases h : updateShadesCreate flt g1 rest fs with ⟨r, ev, g2⟩
          have hev : ev.filter Event.isDeleteEvent = [] := by
            have h2 := ih fs g1
            rw [h] at h2
            exact h2
          cases r <;>
            simp [updateShadesCreate, hu, h, List.filter_append, hevu, hev]

/-- Blobs written during the create shade loop are stored when the loop
finishes, and the loop never removes a stored blob. -/
theorem createLoop_writes_persist (flt : IOFaults) (shades : List Shade) :
    ∀ (files : List (Option UpFile)) (g? : Option GridFS) (b : Nat),
      (Event.bucketWrite b ∈ (updateShadesCreate flt g? shades files).2.1 →
        bucketHas (updateShadesCreate flt g? shades files).2.2 b = true) ∧
      (bucketHas g? b = true →
        bucketHas (updateShadesCreate flt g? shades files).2.2 b = true) := by
  induction shades with
  | nil =>
    intro files g? b
    exact ⟨fun h => by simp [updateShadesCreate] at h, fun h => h⟩
  | cons sh rest ih =>
    intro files g? b
    have step : ∀ (fs : List (Option UpFile)) (gg : Option GridFS),
        (Event.bucketWrite b ∈ (match updateShadesCreate flt gg rest fs with
            | (Except.ok rs, ev, g2) =>
              ((Except.ok (sh :: rs) : Except JsErr (List Shade)), ev, g2)
            | (Except.error e, ev, g2) => (Except.error e, ev, g2)).2.1 →
          bucketHas (match updateShadesCreate flt gg rest fs with
            | (Except.ok rs, ev, g2) =>
              ((Except.ok (sh :: rs) : Except JsErr (List Shade)), ev, g2)
            | (Except.error e, ev, g2) => (Except.error e, ev, g2)).2.2 b = true) ∧
        (bucketHas gg b = true →
          bucketHas (match updateShadesCreate flt gg rest fs with
            | (Except.ok rs, ev, g2) =>
              ((Except.ok (sh :: rs) : Except JsErr (List Shade)), ev, g2)
            | (Except.error e, ev, g2) => (Except.error e, ev, g2)).2.2 b = true) := by
      intro fs gg
      rcases h : updateShadesCreate flt gg rest fs with ⟨r, ev, g2⟩
      have h2 := ih fs gg b
      rw [h] at h2
      cases r <;> simpa using h2
    cases files with
    | nil => exact step [] g?
    | cons of fs =>
      cases of with
      | none => exact step fs g?
      | some f =>
        rcases hu : uploadToGridFS flt g? f with ⟨ru, evu, g1⟩
        have hup := upload_writes_persist flt g? f b
        rw [hu] at hup
        cases ru with
        | error e =>
          simpa [updateShadesCreate, hu] using hup
        | ok imgId =>
          rcases h : updateShadesCreate flt g1 rest fs with ⟨r, ev, g2⟩
          have h2 := ih fs g1 b
          rw [h] at h2
          cases r with
          | ok rs =>
            simp only [updateShadesCreate, hu, h]
            constructor
            · intro hmem
              rcases List.mem_append.mp hmem with hm | hm
              · exact h2.2 (hup.1 hm)
              · exact h2.1 hm
            · intro hb
              exact h2.2 (hup.2 hb)
          | error e =>
            simp only [updateShadesCreate, hu, h]
            constructor
            · intro hmem
              rcases List.mem_append.mp hmem with hm | hm
              · exact h2.2 (hup.1 hm)
              · exact h2.1 hm
            · intro hb
              exact h2.2 (hup.2 hb)

/-- On a ready bucket the delete helper keeps the bucket ready, never
advances the id cursor, never writes, deletes only the id its argument
parses to, and keeps every stored blob whose id differs from that one. -/
theorem delete_props (flt : IOFaults) (g : GridFS) (v : Option ImageVal) :
    ∃ g1, (deleteFromGridFS flt (some g) v).2.2 = some g1 ∧
      g1.nextId = g.nextId ∧
      (∀ d, Event.bucketDelete d ∈ (deleteFromGridFS flt (some g) v).2.1 →
        v.bind ImageVal.toOId = some d) ∧
      (∀ b, Event.bucketWrite b ∈ (deleteFromGridFS flt (some g) v).2.1 → False) ∧
      (∀ b, g.hasFile b = true → v.bind ImageVal.toOId ≠ some b →
        g1.hasFile b = true) := by
  by_cases ht : truthyOpt v
  · cases hb : v.bind ImageVal.toOId with
    | none =>
      have heq : deleteFromGridFS flt (some g) v
          = (.ok (), [Event.bsDeleteCall v], some g) := by
        simp [deleteFromGridFS, ht, hb]
      refine ⟨g, by rw [heq], rfl, ?_, ?_, fun b hs _ => hs⟩ <;>
        · intro d hd
          rw [heq] at hd
          simp at hd
    | some oid =>
      by_cases hf : flt.deleteFault oid
      · have heq : deleteFromGridFS flt (some g) v
            = (.error .ioFailure,
               [Event.bsDeleteCall v, Event.bucketDelete oid], some g) := by
          simp [deleteFromGridFS, ht, hb, GridFS.bucketDelete, hf]
        refine ⟨g, by rw [heq], rfl, ?_, ?_, fun b hs _ => hs⟩
        · intro d hd
          rw [heq] at hd
          simp at hd
          rw [hd]
        · intro b hw
          rw [heq] at hw
          simp at hw
      · by_cases hm : g.hasFile oid
        · have heq : deleteFromGridFS flt (some g) v
              = (.ok (), [Event.bsDeleteCall v, Event.bucketDelete oid],
                 some { g with files := g.files.filter (fun x => x.id != oid) }) := by
            simp [deleteFromGridFS, ht, hb, GridFS.bucketDelete, hf, hm]
          refine ⟨{ g with files := g.files.filter (fun x => x.id != oid) },
            by rw [heq], rfl, ?_, ?_, ?_⟩
          · intro d hd
            rw [heq] at hd
            simp at hd
            rw [hd]
          · intro b hw
            rw [heq] at hw
            simp at hw
          · intro b hhas hne
            have hbne : b ≠ oid := by
              intro hcon
              exact hne (by rw [hcon])
            simp only [GridFS.hasFile, List.any_eq_true] at hhas ⊢
            rcases hhas with ⟨x, hx, hxb⟩
            refine ⟨x, List.mem_filter.mpr ⟨hx, ?_⟩, hxb⟩
            have hxid : x.id = b := by simpa using hxb
            simp [hxid, hbne]
        · have heq : deleteFromGridFS flt (some g) v
              = (.ok (), [Event.bsDeleteCall v, Event.bucketDelete oid],
                 some g) := by
            simp [deleteFromGridFS, ht, hb, GridFS.bucketDelete, hf, hm]
          refine ⟨g, by rw [heq], rfl, ?_, ?_, fun b hs _ => hs⟩
          · intro d hd
            rw [heq] at hd
            simp at hd
            rw [hd]
          · intro b hw
            rw [heq] at hw
            simp at hw
  · have heq : deleteFromGridFS flt (some g) v
        = (.ok (), [Event.bsDeleteCall v], some g) := by
      simp [deleteFromGridFS, ht]
    refine ⟨g, by rw [heq], rfl, ?_, ?_, fun b hs _ => hs⟩ <;>
      · intro d hd
        rw [heq] at hd
        simp at hd

/-- An upload on a ready bucket keeps it ready, never deletes, writes only
ids at or beyond the cursor (which never decreases), stores what it
writes, and keeps every already stored blob. -/
theorem upload_range (flt : IOFaults) (g : GridFS) (n0 : Nat) (f : UpFile)
    (hn : n0 ≤ g.nextId) :
    ∃ g1, (uploadToGridFS flt (some g) f).2.2 = some g1 ∧
      g.nextId ≤ g1.nextId ∧
      (∀ d, Event.bucketDelete d ∈ (uploadToGridFS flt (some g) f).2.1 → d < n0) ∧
      (∀ b, Event.bucketWrite b ∈ (uploadToGridFS flt (some g) f).2.1 →
        n0 ≤ b ∧ g1.hasFile b = true) ∧
      (∀ b, g.hasFile b = true → g1.hasFile b = true) := by
  by_cases hf : flt.uploadFault g.nextId
  · refine ⟨g, ?_, le_refl _, ?_, ?_, fun b hb => hb⟩ <;>
      simp [uploadToGridFS, hf]
  · refine ⟨⟨g.nextId + 1,
      g.files ++ [⟨g.nextId, f.originalname, f.mimetype, f.buffer⟩]⟩,
      ?_, ?_, ?_, ?_, ?_⟩
    · simp [uploadToGridFS, hf]
    · simp
    · intro d hd
      simp [uploadToGridFS, hf] at hd
    · intro b hw
      simp only [uploadToGridFS, hf, Bool.false_eq_true, if_false] at hw
      simp at hw
      refine ⟨hw ▸ hn, ?_⟩
      simp [GridFS.hasFile, List.any_append, hw]
    · intro b hb
      simp only [GridFS.hasFile] at hb
      simp [GridFS.hasFile, List.any_append, hb]

/-- The conditional best effort delete step used by the PUT handler obeys
the same range discipline as the delete helper. -/
theorem delete_branch_props (flt : IOFaults) (g : GridFS) (n0 : Nat)
    (v : Option ImageVal)
    (hv : ∀ m, v.bind ImageVal.toOId = some m → m < n0) :
    ∃ g1, (if truthyOpt v then deleteFromGridFS flt (some g) v
           else ((Except.ok () : Except JsErr Unit), ([] : List Event),
             some g)).2.2 = some g1 ∧
      g1.nextId = g.nextId ∧
      (∀ d, Event.bucketDelete d ∈ (if truthyOpt v
          then deleteFromGridFS flt (some g) v
          else ((Except.ok () : Except JsErr Unit), ([] : List Event),
            some g)).2.1 → d < n0) ∧
      (∀ b, Event.bucketWrite b ∈ (if truthyOpt v
          then deleteFromGridFS flt (some g) v
          else ((Except.ok () : Except JsErr Unit), ([] : List Event),
            some g)).2.1 → False) ∧
      (∀ b, n0 ≤ b → g.hasFile b = true → g1.hasFile b = true) := by
  by_cases ht : truthyOpt v
  · obtain ⟨g1, hg1, hnext, hdel, hwr, hpres⟩ := delete_props flt g v
    refine ⟨g1, by simp [ht, hg1], hnext, ?_, ?_, ?_⟩
    · intro d hd
      simp only [ht, if_true] at hd
      exact hv d (hdel d hd)
    · intro b hw
      simp only [ht, if_true] at hw
      exact hwr b hw
    · intro b hb hhas
      refine hpres b hhas ?_
      intro hcon
      exact absurd (hv b hcon) (by omega)
  · refine ⟨g, by simp [ht], rfl, ?_, ?_, fun b _ hb => hb⟩ <;>
      · intro x hx
        simp [ht] at hx

/-- Range discipline for the PUT shade loop: when every payload shade
reference parses below a bound n0 that is at most the bucket cursor, the
loop keeps the bucket ready, never decreases the cursor, deletes only ids
below n0, writes only fresh ids at or beyond n0 and keeps them stored to
the end, and keeps every stored blob whose id is at or beyond n0. -/
theorem updateShadesPut_range (flt : IOFaults) (n0 : Nat) :
    ∀ (shades : List Shade),
    (∀ s ∈ shades, ∀ m, s.referenceImage.bind ImageVal.toOId = some m → m < n0) →
    ∀ (files : List (Option UpFile)) (g : GridFS), n0 ≤ g.nextId →
    ∃ g2, (updateShadesPut flt (some g) shades files).2.2 = some g2 ∧
      g.nextId ≤ g2.nextId ∧
      (∀ d, Event.bucketDelete d ∈ (updateShadesPut flt (some g) shades files).2.1 →
        d < n0) ∧
      (∀ b, Event.bucketWrite b ∈ (updateShadesPut flt (some g) shades files).2.1 →
        n0 ≤ b ∧ g2.hasFile b = true) ∧
      (∀ b, n0 ≤ b → g.hasFile b = true → g2.hasFile b = true) := by
  intro shades
  induction shades with
  | nil =>
    intro _ files g hn
    exact ⟨g, rfl, le_refl _, fun d hd => by simp [updateShadesPut] at hd,
      fun b hw => by simp [updateShadesPut] at hw, fun b _ hb => hb⟩
  | cons sh rest ih =>
    intro hs files g hn
    have hs0 : ∀ m, sh.referenceImage.bind ImageVal.toOId = some m → m < n0 :=
      hs sh (List.mem_cons_self sh rest)
    have hsr : ∀ s ∈ rest, ∀ m,
        s.referenceImage.bind ImageVal.toOId = some m → m < n0 :=
      fun s hsm => hs s (List.mem_cons_of_mem sh hsm)
    have step : ∀ (fs : List (Option UpFile)),
        ∃ g2, (match updateShadesPut flt (some g) rest fs with
          | (Except.ok rs, ev, g2) =>
            ((Except.ok (sh :: rs) : Except JsErr (List Shade)), ev, g2)
          | (Except.error e, ev, g2) => (Except.error e, ev, g2)).2.2 = some g2 ∧
          g.nextId ≤ g2.nextId ∧
          (∀ d, Event.bucketDelete d ∈ (match updateShadesPut flt (some g) rest fs with
            | (Except.ok rs, ev, g2) =>
              ((Except.ok (sh :: rs) : Except JsErr (List Shade)), ev, g2)
            | (Except.error e, ev, g2) => (Except.error e, ev, g2)).2.1 → d < n0) ∧
          (∀ b, Event.bucketWrite b ∈ (match updateShadesPut flt (some g) rest fs with
            | (Except.ok rs, ev, g2) =>
              ((Except.ok (sh :: rs) : Except JsErr (List Shade)), ev, g2)
            | (Except.error e, ev, g2) => (Except.error e, ev, g2)).2.1 →
            n0 ≤ b ∧ g2.hasFile b = true) ∧
          (∀ b, n0 ≤ b → g.hasFile b = true → g2.hasFile b = true) := by
      intro fs
      obtain ⟨g2, hg2, hle, hdel, hwr, hpres⟩ := ih hsr fs g hn
      rcases h : updateShadesPut flt (some g) rest fs with ⟨r, ev, gr⟩
      rw [h] at hg2 hdel hwr
      cases r <;> exact ⟨g2, by simpa using hg2, hle,
        by simpa using hdel, by simpa using hwr, hpres⟩
    cases files with
    | nil => simpa only [updateShadesPut] using step []
    | cons of fs =>
      cases of with
      | none => simpa only [updateShadesPut] using step fs
      | some f =>
        obtain ⟨gA, hgA, hnextA, hdelA, hwrA, hpresA⟩ :=
          delete_branch_props flt g n0 sh.referenceImage hs0
        rcases hD : (if truthyOpt sh.referenceImage
            then deleteFromGridFS flt (some g) sh.referenceImage
            else ((Except.ok () : Except JsErr Unit), ([] : List Event),
              some g)) with ⟨rD, evD, gD⟩
        rw [hD] at hgA hdelA hwrA
        simp only at hgA hdelA hwrA
        subst hgA
        have hnA : n0 ≤ gA.nextId := by omega
        cases rD with
        | error e =>
          refine ⟨gA, ?_, by omega, ?_, ?_, ?_⟩
          · simp only [updateShadesPut, hD]
          · intro d hd
            simp only [updateShadesPut, hD] at hd
            exact hdelA d hd
          · intro b hw
            simp only [updateShadesPut, hD] at hw
            exact absurd hw (by simpa using hwrA b)
          · intro b hb hhas
            exact hpresA b hb hhas
        | ok u =>
          obtain ⟨gB, hgB, hleB, hdelB, hwrB, hpresB⟩ :=
            upload_range flt gA n0 f hnA
          rcases hU : uploadToGridFS flt (some gA) f with ⟨rU, evU, gU⟩
          rw [hU] at hgB hdelB hwrB
          simp only at hgB hdelB hwrB
          subst hgB
          have hnB : n0 ≤ gB.nextId := by omega
          cases rU with
          | error e =>
            refine ⟨gB, ?_, by omega, ?_, ?_, ?_⟩
            · simp only [updateShadesPut, hD, hU]
            · intro d hd
              simp only [updateShadesPut, hD, hU] at hd
              rcases List.mem_append.mp hd with hm | hm
              · exact hdelA d hm
              · exact hdelB d hm
            · intro b hw
              simp only [updateShadesPut, hD, hU] at hw
              rcases List.mem_append.mp hw with hm | hm
              · exact absurd hm (by simpa using hwrA b)
              · exact hwrB b hm
            · intro b hb hhas
              exact hpresB b (hpresA b hb hhas)
          | ok imgId =>
            obtain ⟨g2, hg2, hle2, hdel2, hwr2, hpres2⟩ := ih hsr fs gB hnB
            rcases hR : updateShadesPut flt (some gB) rest fs with ⟨rR, evR, gR⟩
            rw [hR] at hg2 hdel2 hwr2
            simp only at hg2 hdel2 hwr2
            subst hg2
            have hfin : ∀ d, Event.bucketDelete d ∈ evD ++ evU ++ evR → d < n0 := by
              intro d hd
              rcases List.mem_append.mp hd with hm | hm
              · rcases List.mem_append.mp hm with hm2 | hm2
                · exact hdelA d hm2
                · exact hdelB d hm2
              · exact hdel2 d hm
            have hwfin : ∀ b, Event.bucketWrite b ∈ evD ++ evU ++ evR →
                n0 ≤ b ∧ g2.hasFile b = true := by
              intro b hw
              rcases List.mem_append.mp hw with hm | hm
              · rcases List.mem_append.mp hm with hm2 | hm2
                · exact absurd hm2 (by simpa using hwrA b)
                · obtain ⟨hb1, hb2⟩ := hwrB b hm2
                  exact ⟨hb1, hpres2 b hb1 hb2⟩
              · exact hwr2 b hm
            cases rR with
            | ok rs =>
              refine ⟨g2, ?_, by omega, ?_, ?_, ?_⟩
              · simp only [updateShadesPut, hD, hU, hR]
              · intro d hd
                simp only [updateShadesPut, hD, hU, hR] at hd
                exact hfin d hd
              · intro b hw
                simp only [updateShadesPut, hD, hU, hR] at hw
                exact hwfin b hw
              · intro b hb hhas
                exact hpres2 b hb (hpresB b (hpresA b hb hhas))
            | error e =>
              refine ⟨g2, ?_, by omega, ?_, ?_, ?_⟩
              · simp only [updateShadesPut, hD, hU, hR]
              · intro d hd
                simp only [updateShadesPut, hD, hU, hR] at hd
                exact hfin d hd
              · intro b hw
                simp only [updateShadesPut, hD, hU, hR] at hw
                exact hwfin b hw
              · intro b hb hhas
                exact hpres2 b hb (hpresB b (hpresA b hb hhas))

/-- Range discipline for the PUT main image branch: deletes only target
the old stored reference (below the given bound), writes only fresh ids at
or beyond the bound and they stay stored, stored blobs at or beyond the
bound survive, the cursor never decreases and the bucket stays ready. -/
theorem putMainStep_range (flt : IOFaults) (g : GridFS) (n0 : Nat)
    (oldMain payloadMain : Option ImageVal) (file? : Option UpFile)
    (hn : n0 ≤ g.nextId)
    (hold : ∀ m, oldMain.bind ImageVal.toOId = some m → m < n0) :
    ∃ g1, (putMainStep flt (some g) oldMain payloadMain file?).2.2 = some g1 ∧
      g.nextId ≤ g1.nextId ∧
      (∀ d, Event.bucketDelete d ∈
        (putMainStep flt (some g) oldMain payloadMain file?).2.1 → d < n0) ∧
      (∀ b, Event.bucketWrite b ∈
        (putMainStep flt (some g) oldMain payloadMain file?).2.1 →
        n0 ≤ b ∧ g1.hasFile b = true) ∧
      (∀ b, n0 ≤ b → g.hasFile b = true → g1.hasFile b = true) := by
  cases file? with
  | none =>
    exact ⟨g, rfl, le_refl _, fun d hd => by simp [putMainStep] at hd,
      fun b hw => by simp [putMainStep] at hw, fun b _ hb => hb⟩
  | some f =>
    obtain ⟨gA, hgA, hnextA, hdelA, hwrA, hpresA⟩ :=
      delete_branch_props flt g n0 oldMain hold
    rcases hD : (if truthyOpt oldMain
        then deleteFromGridFS flt (some g) oldMain
        else ((Except.ok () : Except JsErr Unit), ([] : List Event),
          some g)) with ⟨rD, evD, gD⟩
    rw [hD] at hgA hdelA hwrA
    simp only at hgA hdelA hwrA
    subst hgA
    have hnA : n0 ≤ gA.nextId := by omega
    cases rD with
    | error e =>
      refine ⟨gA, ?_, by omega, ?_, ?_, ?_⟩
      · simp only [putMainStep, hD]
      · intro d hd
        simp only [putMainStep, hD] at hd
        exact hdelA d hd
      · intro b hw
        simp only [putMainStep, hD] at hw
        exact absurd hw (by simpa using hwrA b)
      · intro b hb hhas
        exact hpresA b hb hhas
    | ok u =>
      obtain ⟨gB, hgB, hleB, hdelB, hwrB, hpresB⟩ :=
        upload_range flt gA n0 f hnA
      rcases hU : uploadToGridFS flt (some gA) f with ⟨rU, evU, gU⟩
      rw [hU] at hgB hdelB hwrB
      simp only at hgB hdelB hwrB
      subst hgB
      cases rU with
      | error e =>
        refine ⟨gB, ?_, by omega, ?_, ?_, ?_⟩
        · simp only [putMainStep, hD, hU]
        · intro d hd
          simp only [putMainStep, hD, hU] at hd
          rcases List.mem_append.mp hd with hm | hm
          · exact hdelA d hm
          · exact hdelB d hm
        · intro b hw
          simp only [putMainStep, hD, hU] at hw
          rcases List.mem_append.mp hw with hm | hm
          · exact absurd hm (by simpa using hwrA b)
          · exact hwrB b hm
        · intro b hb hhas
          exact hpresB b (hpresA b hb hhas)
      | ok imgId =>
        refine ⟨gB, ?_, by omega, ?_, ?_, ?_⟩
        · simp only [putMainStep, hD, hU]
        · intro d hd
          simp only [putMainStep, hD, hU] at hd
          rcases List.mem_append.mp hd with hm | hm
          · exact hdelA d hm
          · exact hdelB d hm
        · intro b hw
          simp only [putMainStep, hD, hU] at hw
          rcases List.mem_append.mp hw with hm | hm
          · exact absurd hm (by simpa using hwrA b)
          · exact hwrB b hm
        · intro b hb hhas
          exact hpresB b (hpresA b hb hhas)

/-- A successful upload reports exactly one store call followed by the
completed write of the allocated id. -/
theorem uploadToGridFS_ok_trace (flt : IOFaults) (g? : Option GridFS)
    (f : UpFile) (imgId : Nat) (ev : List Event) (g2 : Option GridFS)
    (h : uploadToGridFS flt g? f = (.ok imgId, ev, g2)) :
    ev = [Event.bsStoreCall, Event.bucketWrite imgId] := by
  cases g? with
  | none => simp [uploadToGridFS] at h
  | some g =>
    by_cases hf : flt.uploadFault g.nextId
    · simp [uploadToGridFS, hf] at h
    · simp only [uploadToGridFS, hf, Bool.false_eq_true, if_false,
        Prod.mk.injEq] at h
      obtain ⟨h1, h2, h3⟩ := h
      simp only [Except.ok.injEq] at h1
      rw [← h2, h1]

/-- The delete helper trace never holds a store call or a bucket write. -/
theorem deleteFromGridFS_counts (flt : IOFaults) (g? : Option GridFS)
    (fid : Option ImageVal) :
    (deleteFromGridFS flt g? fid).2.1.countP Event.isBsStoreCall = 0 ∧
    (deleteFromGridFS flt g? fid).2.1.countP Event.isBucketWrite = 0 := by
  unfold deleteFromGridFS
  split
  · cases g? with
    | none => simp [Event.isBsStoreCall, Event.isBucketWrite]
    | some g =>
      cases hb : fid.bind ImageVal.toOId with
      | none => simp [Event.isBsStoreCall, Event.isBucketWrite]
      | some oid =>
        rcases hd : g.bucketDelete flt oid with ⟨res, g1⟩
        cases res <;> simp [hd, Event.isBsStoreCall, Event.isBucketWrite]
  · simp [Event.isBsStoreCall, Event.isBucketWrite]

/-- The conditional best effort delete step of the PUT handler likewise
contributes no store calls and no bucket writes. -/
theorem delete_branch_counts (flt : IOFaults) (g? : Option GridFS)
    (v : Option ImageVal) :
    ((if truthyOpt v then deleteFromGridFS flt g? v
      else ((Except.ok () : Except JsErr Unit), ([] : List Event),
        g?)).2.1.countP Event.isBsStoreCall = 0 ∧
     (if truthyOpt v then deleteFromGridFS flt g? v
      else ((Except.ok () : Except JsErr Unit), ([] : List Event),
        g?)).2.1.countP Event.isBucketWrite = 0) := by
  by_cases ht : truthyOpt v
  · simpa [ht] using deleteFromGridFS_counts flt g? v
  · simp [ht]

/-- On a successful create shade loop every store call completed its
write: the two counts agree. -/
theorem createLoop_count_ok (flt : IOFaults) (shades : List Shade) :
    ∀ (files : List (Option UpFile)) (g? : Option GridFS) (us : List Shade)
      (ev : List Event) (g2 : Option GridFS),
    updateShadesCreate flt g? shades files = (.ok us, ev, g2) →
    ev.countP Event.isBsStoreCall = ev.countP Event.isBucketWrite := by
  induction shades with
  | nil =>
    intro files g? us ev g2 h
    simp only [updateShadesCreate, Prod.mk.injEq] at h
    obtain ⟨-, h2, -⟩ := h
    rw [← h2]
    rfl
  | cons sh rest ih =>
    intro files g? us ev g2 h
    have step : ∀ (fs : List (Option UpFile)),
        (match updateShadesCreate flt g? rest fs with
          | (Except.ok rs, ev, g2) =>
            ((Except.ok (sh :: rs) : Except JsErr (List Shade)), ev, g2)
          | (Except.error e, ev, g2) => (Except.error e, ev, g2))
          = (.ok us, ev, g2) →
        ev.countP Event.isBsStoreCall = ev.countP Event.isBucketWrite := by
      intro fs hm
      rcases hr : updateShadesCreate flt g? rest fs with ⟨r, evr, gr⟩
      rw [hr] at hm
      cases r with
      | error e => simp at hm
      | ok rs =>
        simp only [Prod.mk.injEq] at hm
        obtain ⟨-, hev, -⟩ := hm
        rw [← hev]
        exact ih fs g? rs evr gr hr
    cases files with
    | nil =>
      simp only [updateShadesCreate] at h
      exact step [] h
    | cons of fs =>
      cases of with
      | none =>
        simp only [updateShadesCreate] at h
        exact step fs h
      | some f =>
        rcases hu : uploadToGridFS flt g? f with ⟨ru, evu, g1⟩
        cases ru with
        | error e =>
          simp only [updateShadesCreate, hu] at h
          simp at h
        | ok imgId =>
          rcases hr : updateShadesCreate flt g1 rest fs with ⟨r, evr, gr⟩
          simp only [updateShadesCreate, hu, hr] at h
          cases r with
          | error e => simp at h
          | ok rs =>
            simp only [Prod.mk.injEq] at h
            obtain ⟨-, hev, -⟩ := h
            rw [← hev]
            have hevu := uploadToGridFS_ok_trace flt g? f imgId evu g1 hu
            have hc := ih fs g1 rs evr gr hr
            rw [hevu]
            simp [List.countP_append, Event.isBsStoreCall, Event.isBucketWrite, hc]

/-- On a successful PUT shade loop every store call completed its write:
the two counts agree (delete activity contributes to neither). -/
theorem putShadeLoop_count_ok (flt : IOFaults) (shades : List Shade) :
    ∀ (files : List (Option UpFile)) (g? : Option GridFS) (us : List Shade)
      (ev : List Event) (g2 : Option GridFS),
    updateShadesPut flt g? shades files = (.ok us, ev, g2) →
    ev.countP Event.isBsStoreCall = ev.countP Event.isBucketWrite := by
  induction shades with
  | nil =>
    intro files g? us ev g2 h
    simp only [updateShadesPut, Prod.mk.injEq] at h
    obtain ⟨-, h2, -⟩ := h
    rw [← h2]
    rfl
  | cons sh rest ih =>
    intro files g? us ev g2 h
    have step : ∀ (fs : List (Option UpFile)),
        (match updateShadesPut flt g? rest fs with
          | (Except.ok rs, ev, g2) =>
            ((Except.ok (sh :: rs) : Except JsErr (List Shade)), ev, g2)
          | (Except.error e, ev, g2) => (Except.error e, ev, g2))
          = (.ok us, ev, g2) →
        ev.countP Event.isBsStoreCall = ev.countP Event.isBucketWrite := by
      intro fs hm
      rcases hr : updateShadesPut flt g? rest fs with ⟨r, evr, gr⟩
      rw [hr] at hm
      cases r with
      | error e => simp at hm
      | ok rs =>
        simp only [Prod.mk.injEq] at hm
        obtain ⟨-, hev, -⟩ := hm
        rw [← hev]
        exact ih fs g? rs evr gr hr
    cases files with
    | nil =>
      simp only [updateShadesPut] at h
      exact step [] h
    | cons of fs =>
      cases of with
      | none =>
        simp only [updateShadesPut] at h
        exact step fs h
      | some f =>
        obtain ⟨hz1, hz2⟩ := delete_branch_counts flt g? sh.referenceImage
        rcases hD : (if truthyOpt sh.referenceImage
            then deleteFromGridFS flt g? sh.referenceImage
            else ((Except.ok () : Except JsErr Unit), ([] : List Event),
              g?)) with ⟨rD, evD, gD⟩
        rw [hD] at hz1 hz2
        simp only at hz1 hz2
        cases rD with
        | error e =>
          simp only [updateShadesPut, hD] at h
          simp at h
        | ok u =>
          rcases hU : uploadToGridFS flt gD f with ⟨rU, evU, gU⟩
          cases rU with
          | error e =>
            simp only [updateShadesPut, hD, hU] at h
            simp at h
          | ok imgId =>
            rcases hr : updateShadesPut flt gU rest fs with ⟨r, evr, gr⟩
            simp only [updateShadesPut, hD, hU, hr] at h
            cases r with
            | error e => simp at h
            | ok rs =>
              simp only [Prod.mk.injEq] at h
              obtain ⟨-, hev, -⟩ := h
              rw [← hev]
              have hevU := uploadToGridFS_ok_trace flt gD f imgId evU gU hU
              have hc := ih fs gU rs evr gr hr
              rw [hevU]
              simp [List.countP_append, Event.isBsStoreCall,
                Event.isBucketWrite, hz1, hz2, hc]

/-- On a successful PUT main image step every store call completed its
write: the two counts agree. -/
theorem putMainStep_count_ok (flt : IOFaults) (g? : Option GridFS)
    (oldMain payloadMain : Option ImageVal) (file? : Option UpFile)
    (dm : Option ImageVal) (ev : List Event) (g2 : Option GridFS)
    (h : putMainStep flt g? oldMain payloadMain file? = (.ok dm, ev, g2)) :
    ev.countP Event.isBsStoreCall = ev.countP Event.isBucketWrite := by
  cases file? with
  | none =>
    simp only [putMainStep, Prod.mk.injEq] at h
    obtain ⟨-, h2, -⟩ := h
    rw [← h2]
    rfl
  | some f =>
    obtain ⟨hz1, hz2⟩ := delete_branch_counts flt g? oldMain
    rcases hD : (if truthyOpt oldMain
        then deleteFromGridFS flt g? oldMain
        else ((Except.ok () : Except JsErr Unit), ([] : List Event),
          g?)) with ⟨rD, evD, gD⟩
    rw [hD] at hz1 hz2
    simp only at hz1 hz2
    cases rD with
    | error e =>
      simp only [putMainStep, hD] at h
      simp at h
    | ok u =>
      rcases hU : uploadToGridFS flt gD f with ⟨rU, evU, gU⟩
      cases rU with
      | error e =>
        simp only [putMainStep, hD, hU] at h
        simp at h
      | ok imgId =>
        simp only [putMainStep, hD, hU, Prod.mk.injEq] at h
        obtain ⟨-, hev, -⟩ := h
        rw [← hev]
        have hevU := uploadToGridFS_ok_trace flt gD f imgId evU gU hU
        rw [hevU]
        simp [List.countP_append, Event.isBsStoreCall, Event.isBucketWrite,
          hz1, hz2]

/-- C8: a blob store (write) failure partway through Create or Update is
fatal and nothing is rolled back.  No rollback: the Create trace never
contains deletion activity, every blob written is still stored when the
handler returns, and for Update — provided every client supplied shade
reference and the stored main image parse below the bucket cursor (ids
the store has not issued yet cannot be referenced) — a blob written
during the request is never the target of a delete call and is still
stored when the handler returns.  Failure is fatal: a fault on the main
upload of Create surfaces as the catch all 500; a success response of
either handler certifies that every store call in its trace completed its
bucket write (so a write that failed anywhere forbids success); and if
the main image step or the shade loop of either handler rejects, the
handler answers with the 500 rather than swallowing the failure. -/
theorem store_failure_no_rollback (flt : IOFaults) (st : AppState)
    (req : ProductReq) (idStr : String) :
    ((postProduct flt st req).2.1.filter Event.isDeleteEvent = []) ∧
    (∀ b, Event.bucketWrite b ∈ (postProduct flt st req).2.1 →
      bucketHas (postProduct flt st req).2.2.bucket b = true) ∧
    (∀ g f, st.bucket = some g → req.mainImage = some f →
      flt.uploadFault g.nextId = true →
      (postProduct flt st req).1 = .error500 "Error creating product") ∧
    (∀ g oid product, st.bucket = some g →
      parseObjectIdHex idStr = some oid →
      st.docs.find? (fun p => p.id == oid) = some product →
      (∀ s ∈ req.payload.shades, ∀ m,
        s.referenceImage.bind ImageVal.toOId = some m → m < g.nextId) →
      (∀ m, product.mainImage.bind ImageVal.toOId = some m → m < g.nextId) →
      ∀ b, Event.bucketWrite b ∈ (putProduct flt st idStr req).2.1 →
        Event.bucketDelete b ∉ (putProduct flt st idStr req).2.1 ∧
        bucketHas (putProduct flt st idStr req).2.2.bucket b = true) ∧
    (∀ p ev st2, postProduct flt st req = (.created201 p, ev, st2) →
      ev.countP Event.isBsStoreCall = ev.countP Event.isBucketWrite) ∧
    (∀ f, req.mainImage = some f →
      (postProduct flt st req).1 = .error500 "Error creating product" ∨
      (exceptOk (uploadToGridFS flt st.bucket f).1 = true ∧
       exceptOk (updateShadesCreate flt (uploadToGridFS flt st.bucket f).2.2
         req.payload.shades req.shadeImages).1 = true)) ∧
    (∀ p ev st2, putProduct flt st idStr req = (.json200 p, ev, st2) →
      ev.countP Event.isBsStoreCall = ev.countP Event.isBucketWrite) ∧
    (∀ oid product, parseObjectIdHex idStr = some oid →
      st.docs.find? (fun p => p.id == oid) = some product →
      (putProduct flt st idStr req).1 = .error500 "Error updating product" ∨
      (exceptOk (putMainStep flt st.bucket product.mainImage
          req.payload.mainImage req.mainImage).1 = true ∧
       exceptOk (updateShadesPut flt
          (putMainStep flt st.bucket product.mainImage
            req.payload.mainImage req.mainImage).2.2
          req.payload.shades req.shadeImages).1 = true)) := by
  refine ⟨?_, ?_, ?_, ?_, ?_, ?_, ?_, ?_⟩
  · cases hm : req.mainImage with
    | none => simp [postProduct, hm]
    | some f =>
      rcases hu : uploadToGridFS flt st.bucket f with ⟨ru, evu, g1⟩
      have hfu : evu.filter Event.isDeleteEvent = [] := by
        have h2 := upload_no_deletes flt st.bucket f
        rw [hu] at h2
        exact h2
      cases ru with
      | error e => simp [postProduct, hm, hu, hfu]
      | ok mid =>
        rcases h : updateShadesCreate flt g1 req.payload.shades req.shadeImages
          with ⟨r, ev, g2⟩
        have hfl : ev.filter Event.isDeleteEvent = [] := by
          have h2 := createLoop_no_deletes flt req.payload.shades req.shadeImages g1
          rw [h] at h2
          exact h2
        cases r with
        | error e =>
          simp [postProduct, hm, hu, h, List.filter_append, hfu, hfl]
        | ok us =>
          simp [postProduct, hm, hu, h, List.filter_append, hfu, hfl,
            Event.isDeleteEvent]
  · intro b hw
    cases hm : req.mainImage with
    | none => simp [postProduct, hm] at hw
    | some f =>
      rcases hu : uploadToGridFS flt st.bucket f with ⟨ru, evu, g1⟩
      have hup := upload_writes_persist flt st.bucket f b
      rw [hu] at hup
      cases ru with
      | error e =>
        have hput : postProduct flt st req
            = (.error500 "Error creating product", evu, { st with bucket := g1 }) := by
          simp only [postProduct, hm, hu]
        rw [hput] at hw ⊢
        exact hup.1 hw
      | ok mid =>
        rcases h : updateShadesCreate flt g1 req.payload.shades req.shadeImages
          with ⟨r, ev, g2⟩
        have hlp := createLoop_writes_persist flt req.payload.shades
          req.shadeImages g1 b
        rw [h] at hlp
        cases r with
        | error e =>
          have hput : postProduct flt st req
              = (.error500 "Error creating product", evu ++ ev,
                 { st with bucket := g2 }) := by
            simp only [postProduct, hm, hu, h]
          rw [hput] at hw ⊢
          rcases List.mem_append.mp hw with hm2 | hm2
          · exact hlp.2 (hup.1 hm2)
          · exact hlp.1 hm2
        | ok us =>
          have hput : postProduct flt st req
              = (.created201
                   { id := st.nextDocId, name := req.payload.name,
                     price := req.payload.price,
                     mainImage := some (.oid mid), shades := us,
                     createdAt := st.now, updatedAt := st.now },
                 evu ++ ev ++ [Event.docSave st.nextDocId],
                 { st with
                   bucket := g2,
                   docs := st.docs ++
                     [{ id := st.nextDocId, name := req.payload.name,
                        price := req.payload.price,
                        mainImage := some (.oid mid), shades := us,
                        createdAt := st.now, updatedAt := st.now }],
                   nextDocId := st.nextDocId + 1 }) := by
            simp only [postProduct, hm, hu, h]
          rw [hput] at hw ⊢
          rcases List.mem_append.mp hw with hm2 | hm2
          · rcases List.mem_append.mp hm2 with hm3 | hm3
            · exact hlp.2 (hup.1 hm3)
            · exact hlp.1 hm3
          · simp at hm2
  · intro g f hb hm hf
    simp [postProduct, hm, hb, uploadToGridFS, hf]
  · intro g oid product hb hid hfind hshB hmainB b hw
    obtain ⟨gA, hgA, hleA, hdelA, hwrA, hpresA⟩ :=
      putMainStep_range flt g g.nextId product.mainImage
        req.payload.mainImage req.mainImage (le_refl _) hmainB
    rcases hM : putMainStep flt (some g) product.mainImage
        req.payload.mainImage req.mainImage with ⟨rM, evM, gM⟩
    rw [hM] at hgA hdelA hwrA
    simp only at hgA hdelA hwrA
    subst hgA
    cases rM with
    | error e =>
      have hput : putProduct flt st idStr req
          = (.error500 "Error updating product", evM,
             { st with bucket := some gA }) := by
        simp only [putProduct, hid, hfind, hb, hM]
      rw [hput] at hw ⊢
      simp only at hw ⊢
      refine ⟨?_, (hwrA b hw).2⟩
      intro hcon
      have h1 := (hwrA b hw).1
      have h2 := hdelA b hcon
      omega
    | ok dataMain =>
      obtain ⟨g2, hg2, hle2, hdel2, hwr2, hpres2⟩ :=
        updateShadesPut_range flt g.nextId req.payload.shades hshB
          req.shadeImages gA hleA
      rcases hR : updateShadesPut flt (some gA) req.payload.shades
          req.shadeImages with ⟨rR, evR, gR⟩
      rw [hR] at hg2 hdel2 hwr2
      simp only at hg2 hdel2 hwr2
      subst hg2
      have hwcomb : Event.bucketWrite b ∈ evM ++ evR →
          g.nextId ≤ b ∧ g2.hasFile b = true := by
        intro hm2
        rcases List.mem_append.mp hm2 with hm3 | hm3
        · obtain ⟨h1, h2⟩ := hwrA b hm3
          exact ⟨h1, hpres2 b h1 h2⟩
        · exact hwr2 b hm3
      have hdcomb : ∀ d, Event.bucketDelete d ∈ evM ++ evR → d < g.nextId := by
        intro d hm2
        rcases List.mem_append.mp hm2 with hm3 | hm3
        · exact hdelA d hm3
        · exact hdel2 d hm3
      cases rR with
      | error e =>
        have hput : putProduct flt st idStr req
            = (.error500 "Error updating product", evM ++ evR,
               { st with bucket := some g2 }) := by
          simp only [putProduct, hid, hfind, hb, hM, hR]
        rw [hput] at hw ⊢
        simp only at hw ⊢
        refine ⟨?_, (hwcomb hw).2⟩
        intro hcon
        have h1 := (hwcomb hw).1
        have h2 := hdcomb b hcon
        omega
      | ok us =>
        have hput : putProduct flt st idStr req
            = (.json200
                 { product with
                   name := req.payload.name, price := req.payload.price,
                   mainImage := Option.or dataMain product.mainImage,
                   shades := us, updatedAt := st.now },
               evM ++ evR ++ [Event.docUpdate oid],
               { st with
                 bucket := some g2,
                 docs := st.docs.map (fun p => if p.id == oid then
                   { product with
                     name := req.payload.name, price := req.payload.price,
                     mainImage := Option.or dataMain product.mainImage,
                     shades := us, updatedAt := st.now } else p) }) := by
          simp only [putProduct, hid, hfind, hb, hM, hR]
        rw [hput] at hw ⊢
        simp only at hw ⊢
        have hw2 : Event.bucketWrite b ∈ evM ++ evR := by
          rcases List.mem_append.mp hw with hm2 | hm2
          · exact hm2
          · simp at hm2
        refine ⟨?_, (hwcomb hw2).2⟩
        intro hcon
        rcases List.mem_append.mp hcon with hm2 | hm2
        · have h1 := (hwcomb hw2).1
          have h2 := hdcomb b hm2
          omega
        · simp at hm2
  · intro p ev st2 heq
    cases hm : req.mainImage with
    | none => simp [postProduct, hm] at heq
    | some f =>
      rcases hu : uploadToGridFS flt st.bucket f with ⟨ru, evu, g1⟩
      cases ru with
      | error e => simp [postProduct, hm, hu] at heq
      | ok mid =>
        rcases h : updateShadesCreate flt g1 req.payload.shades req.shadeImages
          with ⟨r, evl, g2⟩
        cases r with
        | error e => simp [postProduct, hm, hu, h] at heq
        | ok us2 =>
          have hevu := uploadToGridFS_ok_trace flt st.bucket f mid evu g1 hu
          have hcl := createLoop_count_ok flt req.payload.shades
            req.shadeImages g1 us2 evl g2 h
          simp only [postProduct, hm, hu, h, Prod.mk.injEq] at heq
          obtain ⟨-, hev, -⟩ := heq
          rw [← hev, hevu]
          simp [List.countP_append, Event.isBsStoreCall, Event.isBucketWrite,
            hcl]
  · intro f hf
    rcases hu : uploadToGridFS flt st.bucket f with ⟨ru, evu, g1⟩
    cases ru with
    | error e =>
      left
      simp [postProduct, hf, hu]
    | ok mid =>
      rcases h : updateShadesCreate flt g1 req.payload.shades req.shadeImages
        with ⟨r, evl, g2⟩
      cases r with
      | error e =>
        left
        simp [postProduct, hf, hu, h]
      | ok us2 =>
        right
        constructor
        · simp [exceptOk]
        · simp [exceptOk]
  · intro p ev st2 heq
    cases hpid : parseObjectIdHex idStr with
    | none => simp [putProduct, hpid] at heq
    | some oid =>
      cases hfind : st.docs.find? (fun q => q.id == oid) with
      | none => simp [putProduct, hpid, hfind] at heq
      | some product =>
        rcases hM : putMainStep flt st.bucket product.mainImage
            req.payload.mainImage req.mainImage with ⟨rM, evM, gM⟩
        cases rM with
        | error e => simp [putProduct, hpid, hfind, hM] at heq
        | ok dm =>
          rcases hR : updateShadesPut flt gM req.payload.shades
              req.shadeImages with ⟨rR, evR, gR⟩
          cases rR with
          | error e => simp [putProduct, hpid, hfind, hM, hR] at heq
          | ok us2 =>
            have hcM := putMainStep_count_ok flt st.bucket product.mainImage
              req.payload.mainImage req.mainImage dm evM gM hM
            have hcR := putShadeLoop_count_ok flt req.payload.shades
              req.shadeImages gM us2 evR gR hR
            simp only [putProduct, hpid, hfind, hM, hR, Prod.mk.injEq] at heq
            obtain ⟨-, hev, -⟩ := heq
            rw [← hev]
            simp [List.countP_append, Event.isBsStoreCall,
              Event.isBucketWrite, hcM, hcR]
  · intro oid product hpid hfind
    rcases hM : putMainStep flt st.bucket product.mainImage
        req.payload.mainImage req.mainImage with ⟨rM, evM, gM⟩
    cases rM with
    | error e =>
      left
      simp [putProduct, hpid, hfind, hM]
    | ok dm =>
      rcases hR : updateShadesPut flt gM req.payload.shades
          req.shadeImages with ⟨rR, evR, gR⟩
      cases rR with
      | error e =>
        left
        simp [putProduct, hpid, hfind, hM, hR]
      | ok us2 =>
        right
        constructor
        · simp [exceptOk]
        · simp [exceptOk]

/-- Witness for store_failure_no_rollback: a create whose main upload
faults (500, no deletes), a create whose shade upload faults partway after
the main image was written (500 again), and an update that writes blob 30
which is never deleted and stays stored. -/
theorem store_failure_no_rollback_witness :
    ((⟨some ⟨10, []⟩, [], 0, 7⟩ : AppState).bucket = some ⟨10, []⟩ ∧
     (⟨⟨"n", 3, none, []⟩, some ⟨"m", "t", [1]⟩, []⟩ : ProductReq).mainImage
       = some ⟨"m", "t", [1]⟩ ∧
     (⟨fun n => n == 10, fun _ => false⟩ : IOFaults).uploadFault 10 = true) ∧
    (postProduct ⟨fun n => n == 10, fun _ => false⟩ ⟨some ⟨10, []⟩, [], 0, 7⟩
        ⟨⟨"n", 3, none, []⟩, some ⟨"m", "t", [1]⟩, []⟩).1
      = .error500 "Error creating product" ∧
    (postProduct ⟨fun n => n == 10, fun _ => false⟩ ⟨some ⟨10, []⟩, [], 0, 7⟩
        ⟨⟨"n", 3, none, []⟩, some ⟨"m", "t", [1]⟩, []⟩).2.1.filter
        Event.isDeleteEvent = [] ∧
    (postProduct ⟨fun n => n == 11, fun _ => false⟩ ⟨some ⟨10, []⟩, [], 0, 7⟩
        ⟨⟨"n", 3, none, [⟨"a", "#1", none, 1, 1⟩]⟩, some ⟨"m", "t", [1]⟩,
         [some ⟨"s", "t", [2]⟩]⟩).1
      = .error500 "Error creating product" ∧
    Event.bucketWrite 30 ∈ (putProduct noFaults
        ⟨some ⟨30, [⟨7, "f", "t", []⟩]⟩,
         [⟨1, "p", 10, some (ImageVal.oid 7), [], 0, 0⟩], 2, 9⟩
        "000000000000000000000001"
        ⟨⟨"n", 3, none, [⟨"a", "#1", some (ImageVal.oid 7), 1, 1⟩]⟩,
         some ⟨"m2", "t", [2]⟩, []⟩).2.1 ∧
    (Event.bucketDelete 30 ∉ (putProduct noFaults
        ⟨some ⟨30, [⟨7, "f", "t", []⟩]⟩,
         [⟨1, "p", 10, some (ImageVal.oid 7), [], 0, 0⟩], 2, 9⟩
        "000000000000000000000001"
        ⟨⟨"n", 3, none, [⟨"a", "#1", some (ImageVal.oid 7), 1, 1⟩]⟩,
         some ⟨"m2", "t", [2]⟩, []⟩).2.1 ∧
     bucketHas (putProduct noFaults
        ⟨some ⟨30, [⟨7, "f", "t", []⟩]⟩,
         [⟨1, "p", 10, some (ImageVal.oid 7), [], 0, 0⟩], 2, 9⟩
        "000000000000000000000001"
        ⟨⟨"n", 3, none, [⟨"a", "#1", some (ImageVal.oid 7), 1, 1⟩]⟩,
         some ⟨"m2", "t", [2]⟩, []⟩).2.2.bucket 30 = true) :=
  ⟨⟨rfl, rfl, rfl⟩,
   (store_failure_no_rollback ⟨fun n => n == 10, fun _ => false⟩
      ⟨some ⟨10, []⟩, [], 0, 7⟩
      ⟨⟨"n", 3, none, []⟩, some ⟨"m", "t", [1]⟩, []⟩ "x").2.2.1
     ⟨10, []⟩ ⟨"m", "t", [1]⟩ rfl rfl rfl,
   (store_failure_no_rollback ⟨fun n => n == 10, fun _ => false⟩
      ⟨some ⟨10, []⟩, [], 0, 7⟩
      ⟨⟨"n", 3, none, []⟩, some ⟨"m", "t", [1]⟩, []⟩ "x").1,
   ((store_failure_no_rollback ⟨fun n => n == 11, fun _ => false⟩
       ⟨some ⟨10, []⟩, [], 0, 7⟩
       ⟨⟨"n", 3, none, [⟨"a", "#1", none, 1, 1⟩]⟩, some ⟨"m", "t", [1]⟩,
        [some ⟨"s", "t", [2]⟩]⟩ "x").2.2.2.2.2.1
      ⟨"m", "t", [1]⟩ rfl).resolve_right (by decide),
   by decide,
   (store_failure_no_rollback noFaults
      ⟨some ⟨30, [⟨7, "f", "t", []⟩]⟩,
       [⟨1, "p", 10, some (ImageVal.oid 7), [], 0, 0⟩], 2, 9⟩
      ⟨⟨"n", 3, none, [⟨"a", "#1", some (ImageVal.oid 7), 1, 1⟩]⟩,
       some ⟨"m2", "t", [2]⟩, []⟩
      "000000000000000000000001").2.2.2.1
     ⟨30, [⟨7, "f", "t", []⟩]⟩ 1 ⟨1, "p", 10, some (ImageVal.oid 7), [], 0, 0⟩
     rfl (by decide) rfl
     (by
       intro s hs m hm
       simp only [List.mem_singleton] at hs
       subst hs
       simp [ImageVal.toOId] at hm
       subst hm
       decide)
     (by
       intro m hm
       simp [ImageVal.toOId] at hm
       subst hm
       decide)
     30 (by decide)⟩
